import Mathlib

/-!
blog4go: the multi-level writer (`multiWriter.go`)

A shallow embedding of `MultiWriter`: the registry of per-level sinks, its
configuration setters, `Close`, the internal dispatch `write` / `writef` and
the twelve public logging entry points.

Calls into the external collaborators (`Writer` sinks and the `Hook`) are
recorded as a list of `Event`s, in program order.  A sink's `write` / `writef`
may raise (a Go panic); the deferred hook step of `write` / `writef` still runs
in that case, exactly as a Go `defer` does.  The reader/writer lock is not part
of the embedding: every operation is modelled as one atomic step.
-/

namespace Blog4go

/-! ## Data model -/

/-- Modelled from the spec: the declaration of `LevelType` and of its six
constants is outside `multiWriter.go`; the Severity Table gives the closed,
totally ordered scale Trace < Debug < Info < Warning < Error < Critical. -/
inductive LevelType where
  | TRACE
  | DEBUG
  | INFO
  | WARNING
  | ERROR
  | CRITICAL
  deriving DecidableEq, Repr

open LevelType

/-- Severity rank of a level: its position in the Severity Table. -/
def LevelType.rank : LevelType → Nat
  | TRACE => 0
  | DEBUG => 1
  | INFO => 2
  | WARNING => 3
  | ERROR => 4
  | CRITICAL => 5

instance : LT LevelType := ⟨fun a b => a.rank < b.rank⟩

instance (a b : LevelType) : Decidable (a < b) :=
  inferInstanceAs (Decidable (a.rank < b.rank))

/-- The six levels, in severity order. -/
def allLevels : List LevelType := [TRACE, DEBUG, INFO, WARNING, ERROR, CRITICAL]

/-- A value of Go's `interface{}` handed to a logging call; the dispatcher
passes values on and never inspects them. -/
inductive Value where
  | str (s : String)
  | int (n : Int)
  | bool (b : Bool)
  deriving DecidableEq, Repr

/-- Modelled from the spec: the `Writer` interface (a Sink) is declared outside
`multiWriter.go`; the dispatcher only ever holds a reference to a sink and
calls its capabilities, so a sink is represented by its identity. -/
structure Writer where
  id : Nat
  deriving DecidableEq, Repr

/-- Modelled from the spec: the `Hook` interface is declared outside
`multiWriter.go`; its only capability is `Fire(level, tags, args...)`. -/
structure Hook where
  id : Nat
  deriving DecidableEq, Repr

/-- The tag mapping `map[string]string`; it is stored and handed on whole. -/
abbrev TagMap := List (String × String)

/-- The source's `type SubWriter []Writer`: the ordered sinks of one level. -/
abbrev SubWriter := List Writer

/-- The source's `map[LevelType]SubWriter`: `none` is an absent key. -/
abbrev WriterMap := LevelType → Option SubWriter

/-- The detached task started by `go func(...)` in `write` / `writef`, with the
arguments captured at the time it is started. -/
inductive HookTask where
  | plain (level : LevelType) (args : List Value)
  | formatted (level : LevelType) (format : String) (args : List Value)
  deriving DecidableEq, Repr

/-- One call issued by the multi-writer to an external collaborator. -/
inductive Event where
  | write (s : Writer) (level : LevelType) (args : List Value)
  | writef (s : Writer) (level : LevelType) (format : String) (args : List Value)
  | flush (s : Writer)
  | close (s : Writer)
  | setLevel (s : Writer) (level : LevelType)
  | setColored (s : Writer) (colored : Bool)
  | setTimeRotated (s : Writer) (timeRotated : Bool)
  | setRetentions (s : Writer) (retentions : Int)
  | setRotateSize (s : Writer) (rotateSize : Int)
  | setRotateLines (s : Writer) (rotateLines : Int)
  | setTags (s : Writer) (tags : TagMap)
  | fire (h : Hook) (level : LevelType) (tags : TagMap) (args : List Value)
  | spawn (task : HookTask)
  deriving DecidableEq, Repr

/-- The sink an event is a call on, if it is a sink call. -/
def Event.sink : Event → Option Writer
  | .write s _ _ => some s
  | .writef s _ _ _ => some s
  | .flush s => some s
  | .close s => some s
  | .setLevel s _ => some s
  | .setColored s _ => some s
  | .setTimeRotated s _ => some s
  | .setRetentions s _ => some s
  | .setRotateSize s _ => some s
  | .setRotateLines s _ => some s
  | .setTags s _ => some s
  | .fire _ _ _ _ => none
  | .spawn _ => none

/-- Whether the event is a sink write (plain or formatted). -/
def Event.isWrite : Event → Bool
  | .write _ _ _ => true
  | .writef _ _ _ _ => true
  | _ => false

/-- Whether the event invokes the hook inline or starts a hook task. -/
def Event.isHook : Event → Bool
  | .fire _ _ _ _ => true
  | .spawn _ => true
  | _ => false

/-- The source's `MultiWriter` struct, without the lock. -/
structure MultiWriter where
  level : LevelType
  writers : WriterMap
  colored : Bool
  closed : Bool
  hook : Option Hook
  hookLevel : LevelType
  hookAsync : Bool
  timeRotated : Bool
  retentions : Int
  rotateSize : Int
  rotateLines : Int
  tags : TagMap

/-- What the multi-writer does not own: `fmt.Sprintf`, and which sink writes
raise.  `raises i s` tells whether the write issued to sink `s` at position `i`
of the fan-out loop raises instead of returning. -/
structure Env where
  sprintf : String → List Value → String
  raises : Nat → Writer → Bool

/-- The order in which one `for ... range writer.writers` visits the keys. Go
leaves it unspecified, so it is any enumeration of the levels without
repetition; absent keys are skipped. -/
structure MapOrder where
  keys : List LevelType
  nodup : keys.Nodup
  complete : ∀ l : LevelType, l ∈ keys

/-- What a logging call did: the calls it issued, and whether a sink failure
left the call by propagating to the caller. -/
structure Outcome where
  events : List Event
  raised : Bool
  deriving DecidableEq, Repr

/-- What one run of a detached hook task did: the calls it issued, and whether
it crashed on a nil hook (`writer.hook.Fire` on a nil interface value is a
run-time panic, and in a goroutine nothing recovers it). -/
structure TaskOutcome where
  events : List Event
  crashed : Bool
  deriving DecidableEq, Repr

/-! ## Map helpers -/

/-- The map with no key. -/
def emptyWriters : WriterMap := fun _ => none

/-- Go's `m[k] = v`. -/
def mapStore (m : WriterMap) (k : LevelType) (v : SubWriter) : WriterMap :=
  fun k' => if k' = k then some v else m k'

/-- Go's `m[k]` read as a value: the nil slice for an absent key. -/
def mapIndex (m : WriterMap) (k : LevelType) : SubWriter :=
  (m k).getD []

/-- The sinks visited by the nested loops
`for _, sub := range writer.writers { for _, w := range sub { ... } }`. -/
def rangeSinks (o : MapOrder) (m : WriterMap) : List Writer :=
  (o.keys.filterMap m).flatten

/-- Every sink entry of every SinkSet of the mapping, by severity then by
registration order. -/
def entries (m : WriterMap) : List Writer :=
  (allLevels.filterMap m).flatten

/-- Every SinkSet present in the mapping has at least one sink. -/
def SinkSetsNonEmpty (m : WriterMap) : Prop :=
  ∀ l ss, m l = some ss → ss ≠ []

/-! ## Registration, getters and setters -/

/-- The source's `AppendWriter`; it calls nothing on the sink. -/
def AppendWriter (writer : MultiWriter) (level : LevelType) (w : Writer) : MultiWriter :=
  match writer.writers level with
  | some subW => { writer with writers := mapStore writer.writers level (subW ++ [w]) }
  | none => { writer with writers := mapStore writer.writers level ([] ++ [w]) }

/-- The source's `TimeRotated`. -/
def TimeRotated (writer : MultiWriter) : Bool := writer.timeRotated

/-- The source's `SetTimeRotated`. -/
def SetTimeRotated (o : MapOrder) (writer : MultiWriter) (timeRotated : Bool) :
    MultiWriter × List Event :=
  ({ writer with timeRotated := timeRotated },
    (rangeSinks o writer.writers).map (fun fileWriter => Event.setTimeRotated fileWriter timeRotated))

/-- The source's `Retentions`. -/
def Retentions (writer : MultiWriter) : Int := writer.retentions

/-- The source's `SetRetentions`. -/
def SetRetentions (o : MapOrder) (writer : MultiWriter) (retentions : Int) :
    MultiWriter × List Event :=
  if retentions < 1 then (writer, [])
  else
    ({ writer with retentions := retentions },
      (rangeSinks o writer.writers).map (fun fileWriter => Event.setRetentions fileWriter retentions))

/-- The source's `RotateSize`. -/
def RotateSize (writer : MultiWriter) : Int := writer.rotateSize

/-- The source's `SetRotateSize`. -/
def SetRotateSize (o : MapOrder) (writer : MultiWriter) (rotateSize : Int) :
    MultiWriter × List Event :=
  ({ writer with rotateSize := rotateSize },
    (rangeSinks o writer.writers).map (fun fileWriter => Event.setRotateSize fileWriter rotateSize))

/-- The source's `RotateLines`. -/
def RotateLines (writer : MultiWriter) : Int := writer.rotateLines

/-- The source's `SetRotateLines`. -/
def SetRotateLines (o : MapOrder) (writer : MultiWriter) (rotateLines : Int) :
    MultiWriter × List Event :=
  ({ writer with rotateLines := rotateLines },
    (rangeSinks o writer.writers).map (fun fileWriter => Event.setRotateLines fileWriter rotateLines))

/-- The source's `Colored`. -/
def Colored (writer : MultiWriter) : Bool := writer.colored

/-- The source's `SetColored`. -/
def SetColored (o : MapOrder) (writer : MultiWriter) (colored : Bool) :
    MultiWriter × List Event :=
  ({ writer with colored := colored },
    (rangeSinks o writer.writers).map (fun fileWriter => Event.setColored fileWriter colored))

/-- The source's `SetHook`; `none` is the nil hook. -/
def SetHook (writer : MultiWriter) (hook : Option Hook) : MultiWriter :=
  { writer with hook := hook }

/-- The source's `SetHookAsync`. -/
def SetHookAsync (writer : MultiWriter) (async : Bool) : MultiWriter :=
  { writer with hookAsync := async }

/-- The source's `SetHookLevel`. -/
def SetHookLevel (writer : MultiWriter) (level : LevelType) : MultiWriter :=
  { writer with hookLevel := level }

/-- The source's `SetLevel`. -/
def SetLevel (o : MapOrder) (writer : MultiWriter) (level : LevelType) :
    MultiWriter × List Event :=
  ({ writer with level := level },
    (rangeSinks o writer.writers).map (fun fileWriter => Event.setLevel fileWriter level))

/-- The source's `Tags`. -/
def Tags (writer : MultiWriter) : TagMap := writer.tags

/-- The source's `SetTags`. -/
def SetTags (o : MapOrder) (writer : MultiWriter) (tags : TagMap) :
    MultiWriter × List Event :=
  ({ writer with tags := tags },
    (rangeSinks o writer.writers).map (fun singleWriter => Event.setTags singleWriter tags))

/-- The source's `Level`. -/
def Level (writer : MultiWriter) : LevelType := writer.level

/-- The source's `Close`. -/
def Close (o : MapOrder) (writer : MultiWriter) : MultiWriter × List Event :=
  ({ writer with closed := true },
    (rangeSinks o writer.writers).map (fun fileWriter => Event.close fileWriter))

/-- The source's `flush`. -/
def flush (o : MapOrder) (writer : MultiWriter) : MultiWriter × List Event :=
  (writer, (rangeSinks o writer.writers).map (fun fileWriter => Event.flush fileWriter))

/-! ## Internal dispatch -/

/-- The fan-out loop `for _, fileWriter := range writer.writers[level]`, from
loop position `i` on: each sink is called in turn, and the loop is left at the
first call that raises.  The second component tells whether a call raised. -/
def fanOut (env : Env) (issue : Writer → Event) : Nat → List Writer → List Event × Bool
  | _, [] => ([], false)
  | i, fileWriter :: rest =>
    if env.raises i fileWriter then ([issue fileWriter], true)
    else
      let r := fanOut env issue (i + 1) rest
      (issue fileWriter :: r.1, r.2)

/-- The deferred function of `write` / `writef`: when a hook is set and the
level is not below the hook level, either start the detached task or call
`Fire` inline with the current tags. -/
def deferredHook (writer : MultiWriter) (level : LevelType) (task : HookTask)
    (payload : List Value) : List Event :=
  match writer.hook with
  | none => []
  | some hook =>
    if ¬ (level < writer.hookLevel) then
      if writer.hookAsync then [Event.spawn task]
      else [Event.fire hook level (Tags writer) payload]
    else []

/-- The body of the detached task started by `write` / `writef`, run against
the state the registry has when the task gets to run.  The body tests the
closed flag and nothing else: it reads `writer.hook` again and calls `Fire` on
it without a nil test, so a hook that has been set to nil since the task was
started makes the body crash. -/
def runHookTask (env : Env) (writer : MultiWriter) : HookTask → TaskOutcome
  | .plain level args =>
    if writer.closed then { events := [], crashed := false }
    else
      match writer.hook with
      | some hook => { events := [Event.fire hook level (Tags writer) args], crashed := false }
      | none => { events := [], crashed := true }
  | .formatted level format args =>
    if writer.closed then { events := [], crashed := false }
    else
      match writer.hook with
      | some hook =>
        { events := [Event.fire hook level (Tags writer) [Value.str (env.sprintf format args)]],
          crashed := false }
      | none => { events := [], crashed := true }

/-- The source's `write`: the fan-out over `writer.writers[level]`, then the
deferred hook step (which runs whether or not a sink raised). -/
def write (env : Env) (writer : MultiWriter) (level : LevelType) (args : List Value) : Outcome :=
  let r := fanOut env (fun fileWriter => Event.write fileWriter level args) 0
    (mapIndex writer.writers level)
  { events := r.1 ++ deferredHook writer level (HookTask.plain level args) args,
    raised := r.2 }

/-- The source's `writef`. -/
def writef (env : Env) (writer : MultiWriter) (level : LevelType) (format : String)
    (args : List Value) : Outcome :=
  let r := fanOut env (fun fileWriter => Event.writef fileWriter level format args) 0
    (mapIndex writer.writers level)
  { events := r.1 ++ deferredHook writer level (HookTask.formatted level format args)
      [Value.str (env.sprintf format args)],
    raised := r.2 }

/-- A call that returned at once: nothing issued, nothing raised. -/
def Outcome.nothing : Outcome := { events := [], raised := false }

/-! ## Public logging entry points -/

/-- The source's `Trace`. -/
def Trace (env : Env) (writer : MultiWriter) (args : List Value) : Outcome :=
  let ok := (writer.writers TRACE).isSome
  if !ok || decide (TRACE < writer.level) then Outcome.nothing
  else write env writer TRACE args

/-- The source's `Tracef`. -/
def Tracef (env : Env) (writer : MultiWriter) (format : String) (args : List Value) : Outcome :=
  let ok := (writer.writers TRACE).isSome
  if !ok || decide (TRACE < writer.level) then Outcome.nothing
  else writef env writer TRACE format args

/-- The source's `Debug`. -/
def Debug (env : Env) (writer : MultiWriter) (args : List Value) : Outcome :=
  let ok := (writer.writers DEBUG).isSome
  if !ok || decide (DEBUG < writer.level) then Outcome.nothing
  else write env writer DEBUG args

/-- The source's `Debugf`. -/
def Debugf (env : Env) (writer : MultiWriter) (format : String) (args : List Value) : Outcome :=
  let ok := (writer.writers DEBUG).isSome
  if !ok || decide (DEBUG < writer.level) then Outcome.nothing
  else writef env writer DEBUG format args

/-- The source's `Info`. -/
def Info (env : Env) (writer : MultiWriter) (args : List Value) : Outcome :=
  let ok := (writer.writers INFO).isSome
  if !ok || decide (INFO < writer.level) then Outcome.nothing
  else write env writer INFO args

/-- The source's `Infof`. -/
def Infof (env : Env) (writer : MultiWriter) (format : String) (args : List Value) : Outcome :=
  let ok := (writer.writers INFO).isSome
  if !ok || decide (INFO < writer.level) then Outcome.nothing
  else writef env writer INFO format args

/-- The source's `Warn`. -/
def Warn (env : Env) (writer : MultiWriter) (args : List Value) : Outcome :=
  let ok := (writer.writers WARNING).isSome
  if !ok || decide (WARNING < writer.level) then Outcome.nothing
  else write env writer WARNING args

/-- The source's `Warnf`. -/
def Warnf (env : Env) (writer : MultiWriter) (format : String) (args : List Value) : Outcome :=
  let ok := (writer.writers WARNING).isSome
  if !ok || decide (WARNING < writer.level) then Outcome.nothing
  else writef env writer WARNING format args

/-- The source's `Error`. -/
def Error (env : Env) (writer : MultiWriter) (args : List Value) : Outcome :=
  let ok := (writer.writers ERROR).isSome
  if !ok || decide (ERROR < writer.level) then Outcome.nothing
  else write env writer ERROR args

/-- The source's `Errorf`. -/
def Errorf (env : Env) (writer : MultiWriter) (format : String) (args : List Value) : Outcome :=
  let ok := (writer.writers ERROR).isSome
  if !ok || decide (ERROR < writer.level) then Outcome.nothing
  else writef env writer ERROR format args

/-- The source's `Critical`. -/
def Critical (env : Env) (writer : MultiWriter) (args : List Value) : Outcome :=
  let ok := (writer.writers CRITICAL).isSome
  if !ok || decide (CRITICAL < writer.level) then Outcome.nothing
  else write env writer CRITICAL args

/-- The source's `Criticalf`. -/
def Criticalf (env : Env) (writer : MultiWriter) (format : String) (args : List Value) : Outcome :=
  let ok := (writer.writers CRITICAL).isSome
  if !ok || decide (CRITICAL < writer.level) then Outcome.nothing
  else writef env writer CRITICAL format args

/-- The plain entry point of a level: `Trace`, `Debug`, `Info`, `Warn`, `Error`
or `Critical`. -/
def logPlain : LevelType → Env → MultiWriter → List Value → Outcome
  | TRACE => Trace
  | DEBUG => Debug
  | INFO => Info
  | WARNING => Warn
  | ERROR => Error
  | CRITICAL => Critical

/-- The formatted entry point of a level: `Tracef`, `Debugf`, `Infof`, `Warnf`,
`Errorf` or `Criticalf`. -/
def logFormatted : LevelType → Env → MultiWriter → String → List Value → Outcome
  | TRACE => Tracef
  | DEBUG => Debugf
  | INFO => Infof
  | WARNING => Warnf
  | ERROR => Errorf
  | CRITICAL => Criticalf

/-- The registry after a sequence of `AppendWriter` calls, oldest first. -/
def registerAll (writer : MultiWriter) (regs : List (LevelType × Writer)) : MultiWriter :=
  regs.foldl (fun w r => AppendWriter w r.1 r.2) writer

/-! ## Concrete states used for evaluation -/

/-- The enumeration of the map keys by severity. -/
def severityOrder : MapOrder :=
  { keys := allLevels
    nodup := by decide
    complete := by intro l; cases l <;> decide }

/-- The enumeration of the map keys by decreasing severity. -/
def reverseOrder : MapOrder :=
  { keys := allLevels.reverse
    nodup := by decide
    complete := by intro l; cases l <;> decide }

/-- An environment in which no sink write raises; `Sprintf` is stood for by
the template followed by the number of arguments. -/
def quietEnv : Env :=
  { sprintf := fun format args => format ++ "/" ++ toString args.length
    raises := fun _ _ => false }

/-- An empty registry: no sink, threshold Debug, no hook. -/
def emptyRegistry : MultiWriter :=
  { level := DEBUG
    writers := emptyWriters
    colored := false
    closed := false
    hook := none
    hookLevel := WARNING
    hookAsync := true
    timeRotated := false
    retentions := 7
    rotateSize := 1024
    rotateLines := 100
    tags := [] }

/-- A registry with one sink at Info, threshold Debug. -/
def oneSinkAtInfo : MultiWriter := registerAll emptyRegistry [(INFO, ⟨1⟩)]

/-- A registry with threshold Error, two sinks at Info and a synchronous hook
triggered from Trace on. -/
def strictRegistry : MultiWriter :=
  { registerAll emptyRegistry [(INFO, ⟨1⟩), (INFO, ⟨2⟩)] with
    level := ERROR, hook := some ⟨7⟩, hookLevel := TRACE, hookAsync := false }

/-- A registry with a sink at Info only, threshold Trace and a synchronous hook
triggered from Warning on. -/
def hookedRegistry : MultiWriter :=
  { registerAll emptyRegistry [(INFO, ⟨1⟩)] with
    level := TRACE, hook := some ⟨7⟩, hookLevel := WARNING, hookAsync := false }

/-- The same sink registered twice at Info; threshold Debug, no hook. -/
def twiceAtInfo : MultiWriter := registerAll emptyRegistry [(INFO, ⟨1⟩), (INFO, ⟨1⟩)]

/-- Two sinks at Info and one at Error, in this registration order. -/
def threeSinks : List (LevelType × Writer) := [(INFO, ⟨1⟩), (ERROR, ⟨3⟩), (INFO, ⟨2⟩)]

/-- A hook triggered from Warning on, asynchronous, threshold Trace, and one
sink, registered at Info: nothing is registered at Error. -/
def hookNoErrorSink : MultiWriter :=
  { registerAll emptyRegistry [(INFO, ⟨1⟩)] with
    level := TRACE, hook := some ⟨7⟩, hookLevel := WARNING, hookAsync := true }

/-- A synchronous hook triggered from Warning on, threshold Debug, tags
`env=prod`, one sink at Info and one at Error. -/
def hookedAtError : MultiWriter :=
  { registerAll emptyRegistry [(INFO, ⟨1⟩), (ERROR, ⟨2⟩)] with
    hook := some ⟨7⟩, hookLevel := WARNING, hookAsync := false, tags := [("env", "prod")] }

/-- Sinks 1 and 2 at Info and sink 3 at Error, threshold Debug, no hook. -/
def threeSinkRegistry : MultiWriter := registerAll emptyRegistry threeSinks

/-- Whether the event is a sink's `SetRotateSize`. -/
def Event.isSetRotateSize : Event → Bool
  | .setRotateSize _ _ => true
  | _ => false

/-- One sink registered at two levels, Info and Error. -/
def sharedSinkRegistry : MultiWriter := registerAll emptyRegistry [(INFO, ⟨1⟩), (ERROR, ⟨1⟩)]

/-- An asynchronous hook triggered from Warning on, threshold Debug, tags
`env=prod`, one sink at Info and one at Error. -/
def asyncHookedAtError : MultiWriter :=
  { hookedAtError with hookAsync := true }

/-- An environment in which the write to sink 2 raises, and no other. -/
def sinkTwoRaises : Env :=
  { sprintf := fun format args => format ++ "/" ++ toString args.length
    raises := fun _ s => decide (s.id = 2) }

/-- Sinks 1, 2 and 3 registered at Error in this order, threshold Debug, a
synchronous hook triggered from Warning on, tags `env=prod`. -/
def threeAtError : MultiWriter :=
  { registerAll emptyRegistry [(ERROR, ⟨1⟩), (ERROR, ⟨2⟩), (ERROR, ⟨3⟩)] with
    hook := some ⟨7⟩, hookLevel := WARNING, hookAsync := false, tags := [("env", "prod")] }

/-- One sink registered at Trace, threshold Debug, no hook. -/
def traceSinkRegistry : MultiWriter := registerAll emptyRegistry [(TRACE, ⟨1⟩)]

/-- No sink at all, threshold Critical, a synchronous hook triggered from Info
on. -/
def hookOnlyRegistry : MultiWriter :=
  { emptyRegistry with level := CRITICAL, hook := some ⟨7⟩, hookLevel := INFO, hookAsync := false }

/-- One call of a public operation of the multi-writer, with the map order and
the environment that call meets. -/
inductive Op where
  | appendWriter (level : LevelType) (w : Writer)
  | setTimeRotated (o : MapOrder) (timeRotated : Bool)
  | setRetentions (o : MapOrder) (retentions : Int)
  | setRotateSize (o : MapOrder) (rotateSize : Int)
  | setRotateLines (o : MapOrder) (rotateLines : Int)
  | setColored (o : MapOrder) (colored : Bool)
  | setHook (hook : Option Hook)
  | setHookAsync (async : Bool)
  | setHookLevel (level : LevelType)
  | setLevel (o : MapOrder) (level : LevelType)
  | setTags (o : MapOrder) (tags : TagMap)
  | close (o : MapOrder)
  | flush (o : MapOrder)
  | logPlain (env : Env) (level : LevelType) (args : List Value)
  | logFormatted (env : Env) (level : LevelType) (format : String) (args : List Value)

/-- The registry after one public operation, and the calls the operation
issued.  Logging calls do not change the registry. -/
def step (writer : MultiWriter) : Op → MultiWriter × List Event
  | .appendWriter level w => (AppendWriter writer level w, [])
  | .setTimeRotated o timeRotated => SetTimeRotated o writer timeRotated
  | .setRetentions o retentions => SetRetentions o writer retentions
  | .setRotateSize o rotateSize => SetRotateSize o writer rotateSize
  | .setRotateLines o rotateLines => SetRotateLines o writer rotateLines
  | .setColored o colored => SetColored o writer colored
  | .setHook hook => (SetHook writer hook, [])
  | .setHookAsync async => (SetHookAsync writer async, [])
  | .setHookLevel level => (SetHookLevel writer level, [])
  | .setLevel o level => SetLevel o writer level
  | .setTags o tags => SetTags o writer tags
  | .close o => Close o writer
  | .flush o => flush o writer
  | .logPlain env level args => (writer, (logPlain level env writer args).events)
  | .logFormatted env level format args =>
    (writer, (logFormatted level env writer format args).events)

/-- The registry after a sequence of public operations, oldest first. -/
def run (writer : MultiWriter) (ops : List Op) : MultiWriter :=
  ops.foldl (fun w op => (step w op).1) writer

/-- The sinks that a sequence of operations registers for a level, oldest
first. -/
def registeredFor (L : LevelType) : List Op → List Writer
  | [] => []
  | .appendWriter level w :: rest =>
    if level = L then w :: registeredFor L rest else registeredFor L rest
  | _ :: rest => registeredFor L rest

/-- A session on a registry: registrations mixed with setters, logging calls,
`Close` and `flush`. -/
def sampleSession : List Op :=
  [.setLevel severityOrder INFO, .appendWriter ERROR ⟨1⟩, .setRetentions reverseOrder 0,
    .logPlain quietEnv ERROR [Value.str "x"], .appendWriter INFO ⟨2⟩,
    .setTags severityOrder [("env", "prod")], .close reverseOrder, .appendWriter ERROR ⟨1⟩,
    .flush severityOrder, .logFormatted sinkTwoRaises INFO "%s" [Value.str "y"]]

/-! ## Helper lemmas -/

/-- Every entry point is the same double gate in front of `write`. -/
theorem logPlain_eq (L : LevelType) (env : Env) (w : MultiWriter) (args : List Value) :
    logPlain L env w args =
      if !(w.writers L).isSome || decide (L < w.level) then Outcome.nothing
      else write env w L args := by
  cases L <;> rfl

/-- Every formatted entry point is the same double gate in front of `writef`. -/
theorem logFormatted_eq (L : LevelType) (env : Env) (w : MultiWriter) (format : String)
    (args : List Value) :
    logFormatted L env w format args =
      if !(w.writers L).isSome || decide (L < w.level) then Outcome.nothing
      else writef env w L format args := by
  cases L <;> rfl

/-- When no sink of the list raises, the loop calls every sink, in order. -/
theorem fanOut_quiet (env : Env) (issue : Writer → Event) (ss : List Writer) :
    ∀ i : Nat, (∀ j s, s ∈ ss → env.raises j s = false) →
      fanOut env issue i ss = (ss.map issue, false) := by
  induction ss with
  | nil => intro i _; rfl
  | cons s rest ih =>
    intro i h
    have hs : env.raises i s = false := h i s (List.mem_cons_self s rest)
    have hrest : ∀ j t, t ∈ rest → env.raises j t = false :=
      fun j t ht => h j t (List.mem_cons_of_mem s ht)
    simp [fanOut, hs, ih (i + 1) hrest]

/-- The loop only ever calls sinks of the list. -/
theorem fanOut_mem (env : Env) (issue : Writer → Event) (ss : List Writer) :
    ∀ (i : Nat) (e : Event), e ∈ (fanOut env issue i ss).1 → ∃ s ∈ ss, e = issue s := by
  induction ss with
  | nil => intro i e h; simp [fanOut] at h
  | cons s rest ih =>
    intro i e h
    by_cases hs : env.raises i s = true
    · simp [fanOut, hs] at h
      exact ⟨s, List.mem_cons_self s rest, h⟩
    · simp [fanOut, hs] at h
      rcases h with h | h
      · exact ⟨s, List.mem_cons_self s rest, h⟩
      · obtain ⟨t, ht, het⟩ := ih (i + 1) e h
        exact ⟨t, List.mem_cons_of_mem s ht, het⟩

/-- The first sink of a non-empty list is always called. -/
theorem fanOut_head (env : Env) (issue : Writer → Event) (s : Writer) (rest : List Writer)
    (i : Nat) : issue s ∈ (fanOut env issue i (s :: rest)).1 := by
  by_cases hs : env.raises i s = true <;> simp [fanOut, hs]

/-- The deferred hook step issues hook events only. -/
theorem deferredHook_isHook (w : MultiWriter) (level : LevelType) (task : HookTask)
    (payload : List Value) :
    ∀ e ∈ deferredHook w level task payload, e.isHook = true ∧ e.isWrite = false := by
  intro e he
  unfold deferredHook at he
  split at he
  · simp at he
  · split at he
    · split at he <;> simp at he <;> subst he <;> simp [Event.isHook, Event.isWrite]
    · simp at he

/-- The empty mapping has no SinkSet at all. -/
theorem sinkSetsNonEmpty_empty : SinkSetsNonEmpty emptyWriters := by
  intro l ss h
  simp [emptyWriters] at h

/-- The `AppendWriter` step keeps every SinkSet non-empty. -/
theorem sinkSetsNonEmpty_append (w : MultiWriter) (level : LevelType) (s : Writer)
    (h : SinkSetsNonEmpty w.writers) : SinkSetsNonEmpty (AppendWriter w level s).writers := by
  intro l ss hl
  unfold AppendWriter at hl
  split at hl <;> simp only [mapStore] at hl <;> split at hl
  · simp at hl; subst hl; simp
  · exact h l ss hl
  · simp at hl; subst hl; simp
  · exact h l ss hl

/-- Registration keeps every SinkSet non-empty. -/
theorem sinkSetsNonEmpty_registerAll (regs : List (LevelType × Writer)) :
    ∀ w : MultiWriter, SinkSetsNonEmpty w.writers →
      SinkSetsNonEmpty (registerAll w regs).writers := by
  induction regs with
  | nil => intro w h; exact h
  | cons r rest ih =>
    intro w h
    exact ih (AppendWriter w r.1 r.2) (sinkSetsNonEmpty_append w r.1 r.2 h)

/-! ## The double gate of the entry points -/

/-- What `write` issues contains a sink write exactly when the SinkSet of the
level is non-empty. -/
theorem write_has_sink_write (env : Env) (w : MultiWriter) (L : LevelType) (args : List Value) :
    (∃ e ∈ (write env w L args).events, e.isWrite = true) ↔ mapIndex w.writers L ≠ [] := by
  constructor
  · rintro ⟨e, he, hw⟩ hnil
    simp only [write, hnil, fanOut, List.nil_append] at he
    have := (deferredHook_isHook w L _ _ e he).2
    simp [this] at hw
  · intro hne
    cases hss : mapIndex w.writers L with
    | nil => exact absurd hss hne
    | cons s rest =>
      refine ⟨Event.write s L args, ?_, rfl⟩
      simp only [write, hss]
      exact List.mem_append_left _ (fanOut_head env _ s rest 0)

/-- What `writef` issues contains a sink write exactly when the SinkSet of the
level is non-empty. -/
theorem writef_has_sink_write (env : Env) (w : MultiWriter) (L : LevelType) (format : String)
    (args : List Value) :
    (∃ e ∈ (writef env w L format args).events, e.isWrite = true) ↔
      mapIndex w.writers L ≠ [] := by
  constructor
  · rintro ⟨e, he, hw⟩ hnil
    simp only [writef, hnil, fanOut, List.nil_append] at he
    have := (deferredHook_isHook w L _ _ e he).2
    simp [this] at hw
  · intro hne
    cases hss : mapIndex w.writers L with
    | nil => exact absurd hss hne
    | cons s rest =>
      refine ⟨Event.writef s L format args, ?_, rfl⟩
      simp only [writef, hss]
      exact List.mem_append_left _ (fanOut_head env _ s rest 0)

/-- C1 (double gate).  In a registry whose SinkSets are all non-empty (every
registry grown from the empty one by `AppendWriter` is such), the plain and the
formatted entry point of a level `L` issue at least one sink write if and only
if the mapping has an entry for `L` itself and `L` is not below the threshold. -/
theorem entry_points_double_gate (env : Env) (w : MultiWriter) (L : LevelType)
    (format : String) (args : List Value) (hne : SinkSetsNonEmpty w.writers) :
    ((∃ e ∈ (logPlain L env w args).events, e.isWrite = true) ↔
        ((w.writers L).isSome = true ∧ ¬ L < w.level)) ∧
    ((∃ e ∈ (logFormatted L env w format args).events, e.isWrite = true) ↔
        ((w.writers L).isSome = true ∧ ¬ L < w.level)) := by
  rw [logPlain_eq, logFormatted_eq]
  cases hL : w.writers L with
  | none => simp [Outcome.nothing]
  | some ss =>
    have hss : mapIndex w.writers L ≠ [] := by
      simpa [mapIndex, hL] using hne L ss hL
    by_cases hlt : L < w.level
    · simp [hlt, Outcome.nothing]
    · simp only [Option.isSome_some, Bool.not_true, hlt, decide_False, Bool.or_self,
        Bool.false_eq_true, if_false, not_false_eq_true, and_self, iff_true]
      exact ⟨(write_has_sink_write env w L args).2 hss,
        (writef_has_sink_write env w L format args).2 hss⟩

/-- C1 at a concrete registry: with the sink W1 at Info and threshold Debug the
gate is open for Info, and `Info` issues a sink write. -/
theorem entry_points_double_gate_witness :
    SinkSetsNonEmpty oneSinkAtInfo.writers ∧
      ∃ e ∈ (logPlain INFO quietEnv oneSinkAtInfo [Value.str "x"]).events, e.isWrite = true :=
  ⟨sinkSetsNonEmpty_registerAll _ _ sinkSetsNonEmpty_empty,
    (entry_points_double_gate quietEnv oneSinkAtInfo INFO "%s" [Value.str "x"]
      (sinkSetsNonEmpty_registerAll _ _ sinkSetsNonEmpty_empty)).1.2 ⟨rfl, by decide⟩⟩

/-- C2.  At a level strictly below the threshold, the plain and the formatted
entry point issue no call at all: no sink write, no inline hook call and no
hook task, whatever sinks are registered and however the hook is set up. -/
theorem below_threshold_silent (env : Env) (w : MultiWriter) (L : LevelType)
    (format : String) (args : List Value) (hlt : L < w.level) :
    (logPlain L env w args).events = [] ∧ (logPlain L env w args).raised = false ∧
    (logFormatted L env w format args).events = [] ∧
    (logFormatted L env w format args).raised = false := by
  rw [logPlain_eq, logFormatted_eq]
  simp [hlt, Outcome.nothing]

/-- C2 at a concrete registry: Info is below the threshold Error. -/
theorem below_threshold_silent_witness :
    INFO < strictRegistry.level ∧
      (logPlain INFO quietEnv strictRegistry [Value.str "x"]).events = [] ∧
      (logFormatted INFO quietEnv strictRegistry "%s" [Value.str "x"]).events = [] :=
  have h := below_threshold_silent quietEnv strictRegistry INFO "%s" [Value.str "x"] (by decide)
  ⟨by decide, h.1, h.2.2.1⟩

/-- C4.  At a level for which the mapping has no SinkSet, the plain and the
formatted entry point issue no call at all: no sink of any level is written
and the hook is neither called nor scheduled, even when the level meets the
threshold and the hook level. -/
theorem no_sinkset_silent (env : Env) (w : MultiWriter) (L : LevelType)
    (format : String) (args : List Value) (hnone : w.writers L = none) :
    (logPlain L env w args).events = [] ∧ (logPlain L env w args).raised = false ∧
    (logFormatted L env w format args).events = [] ∧
    (logFormatted L env w format args).raised = false := by
  rw [logPlain_eq, logFormatted_eq]
  simp [hnone, Outcome.nothing]

/-- C4 at a concrete registry: Error meets the threshold and the hook level,
but has no SinkSet. -/
theorem no_sinkset_silent_witness :
    hookedRegistry.writers ERROR = none ∧ ¬ ERROR < hookedRegistry.level ∧
      ¬ ERROR < hookedRegistry.hookLevel ∧
      (logPlain ERROR quietEnv hookedRegistry [Value.str "x"]).events = [] ∧
      (logFormatted ERROR quietEnv hookedRegistry "%s" [Value.str "x"]).events = [] :=
  have h := no_sinkset_silent quietEnv hookedRegistry ERROR "%s" [Value.str "x"] rfl
  ⟨rfl, by decide, by decide, h.1, h.2.2.1⟩

/-! ## Registration and the fan-out -/

/-- Reading the mapping after one `AppendWriter`. -/
theorem mapIndex_append (w : MultiWriter) (level : LevelType) (s : Writer) (l : LevelType) :
    mapIndex (AppendWriter w level s).writers l =
      if l = level then mapIndex w.writers level ++ [s] else mapIndex w.writers l := by
  unfold AppendWriter
  split <;> rename_i h <;> by_cases hl : l = level <;> simp [mapIndex, mapStore, hl, h]

/-- Presence of a key after one `AppendWriter`. -/
theorem isSome_append (w : MultiWriter) (level : LevelType) (s : Writer) (l : LevelType) :
    ((AppendWriter w level s).writers l).isSome = (decide (l = level) || (w.writers l).isSome) := by
  unfold AppendWriter
  split <;> by_cases hl : l = level <;> simp [mapStore, hl]

/-- The `AppendWriter` step touches the mapping only. -/
theorem append_fields (w : MultiWriter) (level : LevelType) (s : Writer) :
    (AppendWriter w level s).level = w.level ∧ (AppendWriter w level s).colored = w.colored ∧
    (AppendWriter w level s).closed = w.closed ∧ (AppendWriter w level s).hook = w.hook ∧
    (AppendWriter w level s).hookLevel = w.hookLevel ∧
    (AppendWriter w level s).hookAsync = w.hookAsync ∧
    (AppendWriter w level s).timeRotated = w.timeRotated ∧
    (AppendWriter w level s).retentions = w.retentions ∧
    (AppendWriter w level s).rotateSize = w.rotateSize ∧
    (AppendWriter w level s).rotateLines = w.rotateLines ∧
    (AppendWriter w level s).tags = w.tags := by
  unfold AppendWriter
  split <;> simp

/-- The SinkSet of a level after a sequence of registrations: the old one,
followed by the sinks registered for that level, oldest first. -/
theorem mapIndex_registerAll (regs : List (LevelType × Writer)) (L : LevelType) :
    ∀ w : MultiWriter, mapIndex (registerAll w regs).writers L =
      mapIndex w.writers L ++ (regs.filter (fun r => decide (r.1 = L))).map Prod.snd := by
  induction regs with
  | nil => intro w; simp [registerAll]
  | cons r rest ih =>
    intro w
    have h := ih (AppendWriter w r.1 r.2)
    simp only [registerAll, List.foldl_cons] at h ⊢
    rw [h, mapIndex_append]
    by_cases hr : r.1 = L
    · simp [hr, List.filter_cons]
    · have hr' : ¬ L = r.1 := fun e => hr e.symm
      simp [hr, hr', List.filter_cons]

/-- A key is present after a sequence of registrations when it was present
before or some registration names it. -/
theorem isSome_registerAll (regs : List (LevelType × Writer)) (L : LevelType) :
    ∀ w : MultiWriter, ((registerAll w regs).writers L).isSome =
      ((w.writers L).isSome || regs.any (fun r => decide (r.1 = L))) := by
  induction regs with
  | nil => intro w; simp [registerAll]
  | cons r rest ih =>
    intro w
    have h := ih (AppendWriter w r.1 r.2)
    simp only [registerAll, List.foldl_cons] at h ⊢
    rw [h, isSome_append]
    by_cases hr : r.1 = L
    · simp [hr]
    · have hr' : ¬ L = r.1 := fun e => hr e.symm
      simp [hr, hr']

/-- Registration leaves the threshold alone. -/
theorem level_registerAll (regs : List (LevelType × Writer)) :
    ∀ w : MultiWriter, (registerAll w regs).level = w.level := by
  induction regs with
  | nil => intro w; rfl
  | cons r rest ih =>
    intro w
    have h := ih (AppendWriter w r.1 r.2)
    simp only [registerAll, List.foldl_cons] at h ⊢
    rw [h, (append_fields w r.1 r.2).1]

/-- The sink writes among what `write` issues, when no sink of the level
raises: one per entry of the SinkSet, in order. -/
theorem write_sink_writes (env : Env) (w : MultiWriter) (L : LevelType) (args : List Value)
    (hq : ∀ i s, s ∈ mapIndex w.writers L → env.raises i s = false) :
    (write env w L args).events.filter Event.isWrite =
      (mapIndex w.writers L).map (fun s => Event.write s L args) := by
  have hhook : (deferredHook w L (HookTask.plain L args) args).filter Event.isWrite = [] := by
    rw [List.filter_eq_nil_iff]
    intro e he
    simp [(deferredHook_isHook w L _ _ e he).2]
  simp only [write, fanOut_quiet env _ _ 0 hq, List.filter_append, hhook, List.append_nil]
  rw [List.filter_eq_self]
  intro e he
  obtain ⟨s, _, rfl⟩ := List.mem_map.1 he
  rfl

/-- The sink writes among what `writef` issues, when no sink of the level
raises: one per entry of the SinkSet, in order. -/
theorem writef_sink_writes (env : Env) (w : MultiWriter) (L : LevelType) (format : String)
    (args : List Value) (hq : ∀ i s, s ∈ mapIndex w.writers L → env.raises i s = false) :
    (writef env w L format args).events.filter Event.isWrite =
      (mapIndex w.writers L).map (fun s => Event.writef s L format args) := by
  have hhook : (deferredHook w L (HookTask.formatted L format args)
      [Value.str (env.sprintf format args)]).filter Event.isWrite = [] := by
    rw [List.filter_eq_nil_iff]
    intro e he
    simp [(deferredHook_isHook w L _ _ e he).2]
  simp only [writef, fanOut_quiet env _ _ 0 hq, List.filter_append, hhook, List.append_nil]
  rw [List.filter_eq_self]
  intro e he
  obtain ⟨s, _, rfl⟩ := List.mem_map.1 he
  rfl

/-- The sink writes issued by the plain entry point of a level that is not
below the threshold, when no sink of the level raises: one per entry of the
SinkSet of that level, in order (none when the level has no SinkSet). -/
theorem logPlain_sink_writes (env : Env) (w : MultiWriter) (L : LevelType) (args : List Value)
    (hthr : ¬ L < w.level) (hq : ∀ i s, s ∈ mapIndex w.writers L → env.raises i s = false) :
    (logPlain L env w args).events.filter Event.isWrite =
      (mapIndex w.writers L).map (fun s => Event.write s L args) := by
  rw [logPlain_eq]
  cases hL : w.writers L with
  | none => simp [Outcome.nothing, mapIndex, hL]
  | some ss =>
    simp only [Option.isSome_some, Bool.not_true, hthr, decide_False, Bool.or_self,
      Bool.false_eq_true, if_false]
    exact write_sink_writes env w L args hq

/-- The sink writes issued by the formatted entry point of a level that is not
below the threshold, when no sink of the level raises. -/
theorem logFormatted_sink_writes (env : Env) (w : MultiWriter) (L : LevelType)
    (format : String) (args : List Value)
    (hthr : ¬ L < w.level) (hq : ∀ i s, s ∈ mapIndex w.writers L → env.raises i s = false) :
    (logFormatted L env w format args).events.filter Event.isWrite =
      (mapIndex w.writers L).map (fun s => Event.writef s L format args) := by
  rw [logFormatted_eq]
  cases hL : w.writers L with
  | none => simp [Outcome.nothing, mapIndex, hL]
  | some ss =>
    simp only [Option.isSome_some, Bool.not_true, hthr, decide_False, Bool.or_self,
      Bool.false_eq_true, if_false]
    exact writef_sink_writes env w L format args hq

/-- C3, as stated, fails: with the same sink registered twice at Info
(`AppendWriter` does not deduplicate) and Info above the threshold Debug, one
call of `Info` delivers two writes to that sink, not one. -/
theorem one_write_per_sink_refuted :
    ¬ INFO < twiceAtInfo.level ∧ mapIndex twiceAtInfo.writers INFO = [⟨1⟩, ⟨1⟩] ∧
      (logPlain INFO quietEnv twiceAtInfo [Value.str "x"]).events =
        [Event.write ⟨1⟩ INFO [Value.str "x"], Event.write ⟨1⟩ INFO [Value.str "x"]] ∧
      ((logPlain INFO quietEnv twiceAtInfo [Value.str "x"]).events.filter
        (fun e => decide (e.sink = some ⟨1⟩) && e.isWrite)).length ≠ 1 := by
  decide

/-- C3, amended.  In a registry built from an empty mapping by any sequence of
`AppendWriter` calls, for a level `L` not below the threshold whose sinks'
writes return, one call of the plain (formatted) entry point of `L` delivers
exactly one `write` (`writef`) per registration made for `L`, in registration
order, each with level `L` and the payload of the call; a sink registered
several times for `L` is written once per registration. -/
theorem one_write_per_registration (env : Env) (w0 : MultiWriter)
    (regs : List (LevelType × Writer)) (L : LevelType) (format : String) (args : List Value)
    (hempty : w0.writers = emptyWriters)
    (hthr : ¬ L < (registerAll w0 regs).level)
    (hq : ∀ i s, (L, s) ∈ regs → env.raises i s = false) :
    (logPlain L env (registerAll w0 regs) args).events.filter Event.isWrite =
      (regs.filter (fun r => decide (r.1 = L))).map (fun r => Event.write r.2 L args) ∧
    (logFormatted L env (registerAll w0 regs) format args).events.filter Event.isWrite =
      (regs.filter (fun r => decide (r.1 = L))).map
        (fun r => Event.writef r.2 L format args) := by
  have hidx : mapIndex (registerAll w0 regs).writers L =
      (regs.filter (fun r => decide (r.1 = L))).map Prod.snd := by
    rw [mapIndex_registerAll, hempty]
    simp [mapIndex, emptyWriters]
  have hq' : ∀ i s, s ∈ mapIndex (registerAll w0 regs).writers L → env.raises i s = false := by
    intro i s hs
    rw [hidx] at hs
    obtain ⟨r, hr, rfl⟩ := List.mem_map.1 hs
    have hr' := List.mem_filter.1 hr
    have h1 : r.1 = L := by simpa using hr'.2
    exact hq i r.2 (by rw [← h1]; exact hr'.1)
  rw [logPlain_sink_writes env _ L args hthr hq',
    logFormatted_sink_writes env _ L format args hthr hq', hidx]
  simp [List.map_map, Function.comp_def]

/-- C3 amended, at a concrete registry: sinks 1 and 2 registered at Info around
a sink at Error; `Info` writes to 1 then 2 and to nothing else. -/
theorem one_write_per_registration_witness :
    (logPlain INFO quietEnv (registerAll emptyRegistry threeSinks) [Value.str "x"]).events.filter
        Event.isWrite =
      [Event.write ⟨1⟩ INFO [Value.str "x"], Event.write ⟨2⟩ INFO [Value.str "x"]] :=
  (one_write_per_registration quietEnv emptyRegistry threeSinks INFO "%s" [Value.str "x"]
    rfl (by decide) (fun _ _ _ => rfl)).1

/-! ## The hook step -/

/-- The hook events among what `write` issues are those of its deferred step. -/
theorem write_hook_events (env : Env) (w : MultiWriter) (L : LevelType) (args : List Value) :
    (write env w L args).events.filter Event.isHook =
      deferredHook w L (HookTask.plain L args) args := by
  have hfan : (fanOut env (fun s => Event.write s L args) 0
      (mapIndex w.writers L)).1.filter Event.isHook = [] := by
    rw [List.filter_eq_nil_iff]
    intro e he
    obtain ⟨s, _, rfl⟩ := fanOut_mem env _ _ 0 e he
    simp [Event.isHook]
  simp only [write, List.filter_append, hfan, List.nil_append]
  rw [List.filter_eq_self]
  intro e he
  exact (deferredHook_isHook w L _ _ e he).1

/-- The hook events among what `writef` issues are those of its deferred step. -/
theorem writef_hook_events (env : Env) (w : MultiWriter) (L : LevelType) (format : String)
    (args : List Value) :
    (writef env w L format args).events.filter Event.isHook =
      deferredHook w L (HookTask.formatted L format args)
        [Value.str (env.sprintf format args)] := by
  have hfan : (fanOut env (fun s => Event.writef s L format args) 0
      (mapIndex w.writers L)).1.filter Event.isHook = [] := by
    rw [List.filter_eq_nil_iff]
    intro e he
    obtain ⟨s, _, rfl⟩ := fanOut_mem env _ _ 0 e he
    simp [Event.isHook]
  simp only [writef, List.filter_append, hfan, List.nil_append]
  rw [List.filter_eq_self]
  intro e he
  exact (deferredHook_isHook w L _ _ e he).1

/-- C5, as stated, fails: with a hook configured and triggered from Warning
on, but no sink registered at Error, a call of `Error` (or `Errorf`) returns at
the gate and neither calls nor schedules the hook, although Error meets both
the threshold and the hook level. -/
theorem scenario_b_refuted :
    hookNoErrorSink.hook = some ⟨7⟩ ∧ hookNoErrorSink.hookLevel = WARNING ∧
      ¬ ERROR < hookNoErrorSink.level ∧
      (logPlain ERROR quietEnv hookNoErrorSink [Value.str "boom"]).events.filter
        Event.isHook = [] ∧
      (logFormatted ERROR quietEnv hookNoErrorSink "%s" [Value.str "boom"]).events.filter
        Event.isHook = [] := by
  decide

/-- C5, amended (Scenario B).  With a hook `h` configured and hook level
Warning: `Info` and `Infof` never call nor schedule the hook; `Error` and
`Errorf`, when the mapping has a SinkSet for Error and Error is not below the
threshold, dispatch the hook exactly once, whether or not a sink raised: in
synchronous mode one inline `Fire` with level Error, the current tags and the
payload (for `Errorf`, the rendered string), in asynchronous mode one task
carrying Error and the arguments, whose body, run on a registry that is not
closed and still has the hook, calls `Fire` once with the tags of that time. -/
theorem scenario_b_gated (env : Env) (w : MultiWriter) (h : Hook) (format : String)
    (args : List Value) (hhook : w.hook = some h) (hlvl : w.hookLevel = WARNING) :
    ((logPlain INFO env w args).events.filter Event.isHook = [] ∧
      (logFormatted INFO env w format args).events.filter Event.isHook = []) ∧
    ((w.writers ERROR).isSome = true → ¬ ERROR < w.level →
      (logPlain ERROR env w args).events.filter Event.isHook =
        (if w.hookAsync then [Event.spawn (HookTask.plain ERROR args)]
          else [Event.fire h ERROR (Tags w) args]) ∧
      (logFormatted ERROR env w format args).events.filter Event.isHook =
        (if w.hookAsync then [Event.spawn (HookTask.formatted ERROR format args)]
          else [Event.fire h ERROR (Tags w) [Value.str (env.sprintf format args)]])) ∧
    (∀ w' : MultiWriter, w'.closed = false → w'.hook = some h →
      runHookTask env w' (HookTask.plain ERROR args) =
        { events := [Event.fire h ERROR (Tags w') args], crashed := false } ∧
      runHookTask env w' (HookTask.formatted ERROR format args) =
        { events := [Event.fire h ERROR (Tags w') [Value.str (env.sprintf format args)]],
          crashed := false }) := by
  refine ⟨?_, ?_, ?_⟩
  · have hinfo : INFO < w.hookLevel := by rw [hlvl]; decide
    rw [logPlain_eq, logFormatted_eq]
    constructor <;> split <;>
      simp [Outcome.nothing, write_hook_events, writef_hook_events, deferredHook, hhook, hinfo]
  · intro hsome hthr
    have herr : ¬ ERROR < w.hookLevel := by rw [hlvl]; decide
    rw [logPlain_eq, logFormatted_eq]
    simp only [hsome, Bool.not_true, hthr, decide_False, Bool.or_self, Bool.false_eq_true,
      if_false, write_hook_events, writef_hook_events]
    constructor <;> simp [deferredHook, hhook, herr]
  · intro w' hclosed hh
    simp [runHookTask, hclosed, hh]

/-- C5 amended, at a concrete registry: sinks at Info and Error, a synchronous
hook from Warning on; `Error` fires the hook once with the tags `env=prod`. -/
theorem scenario_b_gated_witness :
    hookedAtError.hook = some ⟨7⟩ ∧ hookedAtError.hookLevel = WARNING ∧
      (logPlain INFO quietEnv hookedAtError [Value.str "boom"]).events.filter Event.isHook = [] ∧
      (logPlain ERROR quietEnv hookedAtError [Value.str "boom"]).events.filter Event.isHook =
        [Event.fire ⟨7⟩ ERROR [("env", "prod")] [Value.str "boom"]] :=
  have h := scenario_b_gated quietEnv hookedAtError ⟨7⟩ "%s" [Value.str "boom"] rfl rfl
  ⟨rfl, rfl, h.1.1, (h.2.1 rfl (by decide)).1⟩

/-! ## Configuration setters -/

/-- Whatever order the map is ranged in, the loops visit every sink entry of
every SinkSet exactly once. -/
theorem rangeSinks_perm (o : MapOrder) (m : WriterMap) : (rangeSinks o m).Perm (entries m) := by
  have hkeys : o.keys.Perm allLevels := by
    rw [List.perm_ext_iff_of_nodup o.nodup (by decide)]
    intro l
    constructor
    · intro _; cases l <;> decide
    · intro _; exact o.complete l
  exact (hkeys.filterMap m).flatten

/-- C6.  For a count below 1 (zero or negative), `SetRetentions` returns at
once: the registry is unchanged in every field, `Retentions` still returns the
old count, and no sink is called. -/
theorem setRetentions_below_one_noop (o : MapOrder) (w : MultiWriter) (n : Int) (hn : n < 1) :
    SetRetentions o w n = (w, []) ∧ Retentions (SetRetentions o w n).1 = Retentions w := by
  simp [SetRetentions, hn]

/-- C6 at concrete inputs: counts 0 and -3 on a registry with three sinks. -/
theorem setRetentions_below_one_noop_witness :
    (SetRetentions severityOrder threeSinkRegistry 0).2 = [] ∧
      Retentions (SetRetentions severityOrder threeSinkRegistry 0).1 = 7 ∧
      (SetRetentions reverseOrder threeSinkRegistry (-3)).2 = [] ∧
      Retentions (SetRetentions reverseOrder threeSinkRegistry (-3)).1 = 7 :=
  have h0 := setRetentions_below_one_noop severityOrder threeSinkRegistry 0 (by decide)
  have h3 := setRetentions_below_one_noop reverseOrder threeSinkRegistry (-3) (by decide)
  ⟨congrArg Prod.snd h0.1, h0.2, congrArg Prod.snd h3.1, h3.2⟩

/-- C7 (store and broadcast).  Each of `SetLevel`, `SetColored`,
`SetTimeRotated`, `SetRetentions` (count at least 1), `SetRotateSize`,
`SetRotateLines` and `SetTags` stores the value, so that the matching getter
returns it, and issues exactly the matching sink setter with that value once
per sink entry of every SinkSet of the mapping (in the order the map is ranged
in) and no other call. -/
theorem store_and_broadcast (o : MapOrder) (w : MultiWriter) (level : LevelType)
    (colored timeRotated : Bool) (retentions rotateSize rotateLines : Int) (tags : TagMap)
    (hret : 1 ≤ retentions) :
    (Level (SetLevel o w level).1 = level ∧
      (SetLevel o w level).2.Perm ((entries w.writers).map (fun s => Event.setLevel s level))) ∧
    (Colored (SetColored o w colored).1 = colored ∧
      (SetColored o w colored).2.Perm
        ((entries w.writers).map (fun s => Event.setColored s colored))) ∧
    (TimeRotated (SetTimeRotated o w timeRotated).1 = timeRotated ∧
      (SetTimeRotated o w timeRotated).2.Perm
        ((entries w.writers).map (fun s => Event.setTimeRotated s timeRotated))) ∧
    (Retentions (SetRetentions o w retentions).1 = retentions ∧
      (SetRetentions o w retentions).2.Perm
        ((entries w.writers).map (fun s => Event.setRetentions s retentions))) ∧
    (RotateSize (SetRotateSize o w rotateSize).1 = rotateSize ∧
      (SetRotateSize o w rotateSize).2.Perm
        ((entries w.writers).map (fun s => Event.setRotateSize s rotateSize))) ∧
    (RotateLines (SetRotateLines o w rotateLines).1 = rotateLines ∧
      (SetRotateLines o w rotateLines).2.Perm
        ((entries w.writers).map (fun s => Event.setRotateLines s rotateLines))) ∧
    (Tags (SetTags o w tags).1 = tags ∧
      (SetTags o w tags).2.Perm ((entries w.writers).map (fun s => Event.setTags s tags))) := by
  have hperm := rangeSinks_perm o w.writers
  have hnot : ¬ retentions < 1 := by omega
  refine ⟨⟨rfl, hperm.map _⟩, ⟨rfl, hperm.map _⟩, ⟨rfl, hperm.map _⟩, ?_, ⟨rfl, hperm.map _⟩,
    ⟨rfl, hperm.map _⟩, ⟨rfl, hperm.map _⟩⟩
  simp only [SetRetentions, hnot, if_false]
  exact ⟨rfl, hperm.map _⟩

/-- C7 at a concrete registry, ranged by decreasing severity: `SetRetentions 30`
stores 30 and reaches the three sink entries. -/
theorem store_and_broadcast_witness :
    Retentions (SetRetentions reverseOrder threeSinkRegistry 30).1 = 30 ∧
      (SetRetentions reverseOrder threeSinkRegistry 30).2.Perm
        [Event.setRetentions ⟨1⟩ 30, Event.setRetentions ⟨2⟩ 30, Event.setRetentions ⟨3⟩ 30] :=
  (store_and_broadcast reverseOrder threeSinkRegistry INFO true true 30 4096 500
    [("env", "prod")] (by decide)).2.2.2.1

/-- A sink is among the entries exactly when some SinkSet holds it. -/
theorem mem_entries (m : WriterMap) (s : Writer) :
    s ∈ entries m ↔ ∃ l, s ∈ mapIndex m l := by
  have hall : ∀ l : LevelType, l ∈ allLevels := by intro l; cases l <;> decide
  simp only [entries, List.mem_flatten, List.mem_filterMap]
  constructor
  · rintro ⟨ss, ⟨l, _, hl⟩, hs⟩
    exact ⟨l, by simpa [mapIndex, hl] using hs⟩
  · rintro ⟨l, hs⟩
    cases hl : m l with
    | none => simp [mapIndex, hl] at hs
    | some ss => exact ⟨ss, ⟨l, hall l, hl⟩, by simpa [mapIndex, hl] using hs⟩

/-- Logging calls issue sink writes and hook events only. -/
theorem log_events_kind (env : Env) (w : MultiWriter) (L : LevelType) (format : String)
    (args : List Value) :
    (∀ e ∈ (logPlain L env w args).events, e.isWrite = true ∨ e.isHook = true) ∧
    (∀ e ∈ (logFormatted L env w format args).events, e.isWrite = true ∨ e.isHook = true) := by
  rw [logPlain_eq, logFormatted_eq]
  constructor <;> intro e he <;> split at he
  · simp [Outcome.nothing] at he
  · simp only [write, List.mem_append] at he
    rcases he with he | he
    · obtain ⟨s, _, rfl⟩ := fanOut_mem env _ _ 0 e he
      exact Or.inl rfl
    · exact Or.inr (deferredHook_isHook w L _ _ e he).1
  · simp [Outcome.nothing] at he
  · simp only [writef, List.mem_append] at he
    rcases he with he | he
    · obtain ⟨s, _, rfl⟩ := fanOut_mem env _ _ 0 e he
      exact Or.inl rfl
    · exact Or.inr (deferredHook_isHook w L _ _ e he).1

/-- C8 (no catch-up for late sinks).  After `SetRotateSize N` followed by
`AppendWriter L S` for a sink `S` not registered before: every sink entry
registered before the setter was sent `SetRotateSize N`; the setter called
nothing on `S`, and `AppendWriter` calls nothing at all and changes no stored
configuration value (the stored size stays `N`), it only appends `S` to the
SinkSet of `L`; `S` is sent a size by a later `SetRotateSize`, and by no other
setter, `Close`, `flush` or logging call. -/
theorem late_sink_gets_no_catch_up (o o' : MapOrder) (env : Env) (w : MultiWriter) (N M : Int)
    (L : LevelType) (S : Writer) (hfresh : S ∉ entries w.writers) :
    (∀ s ∈ entries w.writers, Event.setRotateSize s N ∈ (SetRotateSize o w N).2) ∧
    (∀ e ∈ (SetRotateSize o w N).2, e.sink ≠ some S) ∧
    (RotateSize (AppendWriter (SetRotateSize o w N).1 L S) = N ∧
      (AppendWriter (SetRotateSize o w N).1 L S).level = w.level ∧
      (AppendWriter (SetRotateSize o w N).1 L S).colored = w.colored ∧
      (AppendWriter (SetRotateSize o w N).1 L S).closed = w.closed ∧
      (AppendWriter (SetRotateSize o w N).1 L S).hook = w.hook ∧
      (AppendWriter (SetRotateSize o w N).1 L S).hookLevel = w.hookLevel ∧
      (AppendWriter (SetRotateSize o w N).1 L S).hookAsync = w.hookAsync ∧
      (AppendWriter (SetRotateSize o w N).1 L S).timeRotated = w.timeRotated ∧
      (AppendWriter (SetRotateSize o w N).1 L S).retentions = w.retentions ∧
      (AppendWriter (SetRotateSize o w N).1 L S).rotateLines = w.rotateLines ∧
      (AppendWriter (SetRotateSize o w N).1 L S).tags = w.tags) ∧
    mapIndex (AppendWriter (SetRotateSize o w N).1 L S).writers L = mapIndex w.writers L ++ [S] ∧
    Event.setRotateSize S M ∈ (SetRotateSize o' (AppendWriter (SetRotateSize o w N).1 L S) M).2 ∧
    (∀ (w' : MultiWriter) (level : LevelType) (b : Bool) (n : Int) (tags : TagMap)
        (format : String) (args : List Value),
      (∀ e ∈ (SetLevel o' w' level).2, e.isSetRotateSize = false) ∧
      (∀ e ∈ (SetColored o' w' b).2, e.isSetRotateSize = false) ∧
      (∀ e ∈ (SetTimeRotated o' w' b).2, e.isSetRotateSize = false) ∧
      (∀ e ∈ (SetRetentions o' w' n).2, e.isSetRotateSize = false) ∧
      (∀ e ∈ (SetRotateLines o' w' n).2, e.isSetRotateSize = false) ∧
      (∀ e ∈ (SetTags o' w' tags).2, e.isSetRotateSize = false) ∧
      (∀ e ∈ (Close o' w').2, e.isSetRotateSize = false) ∧
      (∀ e ∈ (flush o' w').2, e.isSetRotateSize = false) ∧
      (∀ e ∈ (logPlain level env w' args).events, e.isSetRotateSize = false) ∧
      (∀ e ∈ (logFormatted level env w' format args).events, e.isSetRotateSize = false)) := by
  have hmem : ∀ (o1 : MapOrder) (m : WriterMap) (s : Writer),
      s ∈ rangeSinks o1 m ↔ s ∈ entries m := fun o1 m s => (rangeSinks_perm o1 m).mem_iff
  refine ⟨?_, ?_, ?_, ?_, ?_, ?_⟩
  · intro s hs
    exact List.mem_map.2 ⟨s, (hmem o w.writers s).2 hs, rfl⟩
  · intro e he hS
    obtain ⟨s, hs, rfl⟩ := List.mem_map.1 he
    simp only [Event.sink, Option.some.injEq] at hS
    exact hfresh (hS ▸ (hmem o w.writers s).1 hs)
  · have h := append_fields (SetRotateSize o w N).1 L S
    exact ⟨h.2.2.2.2.2.2.2.2.1, h.1, h.2.1, h.2.2.1, h.2.2.2.1, h.2.2.2.2.1, h.2.2.2.2.2.1,
      h.2.2.2.2.2.2.1, h.2.2.2.2.2.2.2.1, h.2.2.2.2.2.2.2.2.2.1, h.2.2.2.2.2.2.2.2.2.2⟩
  · rw [mapIndex_append]
    simp [SetRotateSize]
  · refine List.mem_map.2 ⟨S, (hmem o' _ S).2 ((mem_entries _ S).2 ⟨L, ?_⟩), rfl⟩
    rw [mapIndex_append]
    simp
  · intro w' level b n tags format args
    have hlog := log_events_kind env w' level format args
    refine ⟨?_, ?_, ?_, ?_, ?_, ?_, ?_, ?_, ?_, ?_⟩
    · intro e he; obtain ⟨s, _, rfl⟩ := List.mem_map.1 he; rfl
    · intro e he; obtain ⟨s, _, rfl⟩ := List.mem_map.1 he; rfl
    · intro e he; obtain ⟨s, _, rfl⟩ := List.mem_map.1 he; rfl
    · intro e he
      unfold SetRetentions at he
      split at he
      · simp at he
      · obtain ⟨s, _, rfl⟩ := List.mem_map.1 he; rfl
    · intro e he; obtain ⟨s, _, rfl⟩ := List.mem_map.1 he; rfl
    · intro e he; obtain ⟨s, _, rfl⟩ := List.mem_map.1 he; rfl
    · intro e he; obtain ⟨s, _, rfl⟩ := List.mem_map.1 he; rfl
    · intro e he; obtain ⟨s, _, rfl⟩ := List.mem_map.1 he; rfl
    · intro e he
      have hk := hlog.1 e he
      clear he hlog
      cases e <;> simp_all [Event.isWrite, Event.isHook, Event.isSetRotateSize]
    · intro e he
      have hk := hlog.2 e he
      clear he hlog
      cases e <;> simp_all [Event.isWrite, Event.isHook, Event.isSetRotateSize]

/-- C8 at a concrete registry: sink 9 joins at Error after `SetRotateSize 4096`;
the setter reached sinks 1, 2 and 3 and not 9; a later `SetRotateSize 8192`
reaches 9. -/
theorem late_sink_gets_no_catch_up_witness :
    (⟨9⟩ : Writer) ∉ entries threeSinkRegistry.writers ∧
      (SetRotateSize severityOrder threeSinkRegistry 4096).2 =
        [Event.setRotateSize ⟨1⟩ 4096, Event.setRotateSize ⟨2⟩ 4096,
          Event.setRotateSize ⟨3⟩ 4096] ∧
      (∀ e ∈ (SetRotateSize severityOrder threeSinkRegistry 4096).2, e.sink ≠ some ⟨9⟩) ∧
      Event.setRotateSize ⟨9⟩ 8192 ∈
        (SetRotateSize reverseOrder
          (AppendWriter (SetRotateSize severityOrder threeSinkRegistry 4096).1 ERROR ⟨9⟩) 8192).2 :=
  have h := late_sink_gets_no_catch_up severityOrder reverseOrder quietEnv threeSinkRegistry
    4096 8192 ERROR ⟨9⟩ (by decide)
  ⟨by decide, by decide, h.2.1, h.2.2.2.2.1⟩

/-! ## Close -/

/-- Counting a sink among the entries, level by level. -/
theorem count_entries (m : WriterMap) (t : Writer) :
    (entries m).count t = (allLevels.map (fun l => (mapIndex m l).count t)).sum := by
  have hgen : ∀ ls : List LevelType, ((ls.filterMap m).flatten).count t =
      (ls.map (fun l => (mapIndex m l).count t)).sum := by
    intro ls
    induction ls with
    | nil => rfl
    | cons a rest ih =>
      cases ha : m a with
      | none => simp [List.filterMap_cons, ha, mapIndex, ih]
      | some ss => simp [List.filterMap_cons, ha, mapIndex, ih]
  exact hgen allLevels

/-- One `AppendWriter` adds one entry, for the sink it is given. -/
theorem count_entries_append (w : MultiWriter) (level : LevelType) (s t : Writer) :
    (entries (AppendWriter w level s).writers).count t =
      (entries w.writers).count t + [s].count t := by
  rw [count_entries, count_entries]
  simp only [mapIndex_append]
  cases level <;> simp [allLevels, List.count_append] <;> omega

/-- The entries after a sequence of registrations: one more per registration. -/
theorem count_entries_registerAll (regs : List (LevelType × Writer)) (t : Writer) :
    ∀ w : MultiWriter, (entries (registerAll w regs).writers).count t =
      (entries w.writers).count t + (regs.map Prod.snd).count t := by
  induction regs with
  | nil => intro w; simp [registerAll]
  | cons r rest ih =>
    intro w
    have h := ih (AppendWriter w r.1 r.2)
    simp only [registerAll, List.foldl_cons] at h ⊢
    rw [h, count_entries_append, List.map_cons, List.count_singleton, List.count_cons]
    omega

/-- C9, as stated, fails: with one sink registered at two levels (nothing
deduplicates registrations), `Close` calls that sink's close twice, not once. -/
theorem close_each_sink_once_refuted :
    (Close severityOrder sharedSinkRegistry).2 = [Event.close ⟨1⟩, Event.close ⟨1⟩] ∧
      (Close severityOrder sharedSinkRegistry).2.count (Event.close ⟨1⟩) ≠ 1 := by
  decide

/-- C9, amended.  For a registry built from an empty mapping by any sequence
of `AppendWriter` calls, `Close` issues close calls only, one per registration
(a sink registered k times is closed k times, a sink registered once is closed
exactly once), leaves the closed flag set, and changes neither the mapping nor
the threshold, rotation values, color, tags or hook settings. -/
theorem close_once_per_registration (o : MapOrder) (w0 : MultiWriter)
    (regs : List (LevelType × Writer)) (hempty : w0.writers = emptyWriters) :
    (∀ s, (Close o (registerAll w0 regs)).2.count (Event.close s) =
      (regs.map Prod.snd).count s) ∧
    (∀ e ∈ (Close o (registerAll w0 regs)).2, ∃ s, e = Event.close s) ∧
    (Close o (registerAll w0 regs)).1.closed = true ∧
    (Close o (registerAll w0 regs)).1.writers = (registerAll w0 regs).writers ∧
    (Close o (registerAll w0 regs)).1.level = (registerAll w0 regs).level ∧
    (Close o (registerAll w0 regs)).1.colored = (registerAll w0 regs).colored ∧
    (Close o (registerAll w0 regs)).1.hook = (registerAll w0 regs).hook ∧
    (Close o (registerAll w0 regs)).1.hookLevel = (registerAll w0 regs).hookLevel ∧
    (Close o (registerAll w0 regs)).1.hookAsync = (registerAll w0 regs).hookAsync ∧
    (Close o (registerAll w0 regs)).1.timeRotated = (registerAll w0 regs).timeRotated ∧
    (Close o (registerAll w0 regs)).1.retentions = (registerAll w0 regs).retentions ∧
    (Close o (registerAll w0 regs)).1.rotateSize = (registerAll w0 regs).rotateSize ∧
    (Close o (registerAll w0 regs)).1.rotateLines = (registerAll w0 regs).rotateLines ∧
    (Close o (registerAll w0 regs)).1.tags = (registerAll w0 regs).tags := by
  refine ⟨?_, ?_, rfl, rfl, rfl, rfl, rfl, rfl, rfl, rfl, rfl, rfl, rfl, rfl⟩
  · intro s
    have hinj : Function.Injective (fun fileWriter => Event.close fileWriter) := by
      intro a b hab
      simpa using hab
    have hempty' : (entries w0.writers).count s = 0 := by
      rw [hempty]
      rfl
    simp only [Close]
    rw [List.count_map_of_injective _ _ hinj, (rangeSinks_perm o _).count_eq,
      count_entries_registerAll, hempty', Nat.zero_add]
  · intro e he
    obtain ⟨s, _, rfl⟩ := List.mem_map.1 he
    exact ⟨s, rfl⟩

/-- C9 amended, at a concrete registry ranged by decreasing severity: the sink
registered at Info and at Error is closed twice, and the flag is set. -/
theorem close_once_per_registration_witness :
    (Close reverseOrder (registerAll emptyRegistry [(INFO, ⟨1⟩), (ERROR, ⟨1⟩)])).2.count
        (Event.close ⟨1⟩) = 2 ∧
      (Close reverseOrder (registerAll emptyRegistry [(INFO, ⟨1⟩), (ERROR, ⟨1⟩)])).1.closed = true :=
  have h := close_once_per_registration reverseOrder emptyRegistry [(INFO, ⟨1⟩), (ERROR, ⟨1⟩)] rfl
  ⟨h.1 ⟨1⟩, h.2.2.1⟩

/-- C10 (Scenario D).  After `Close`, the closed flag is set, yet a log call at
a level `L` that has a SinkSet and meets the threshold does what it would do
on the registry with the flag cleared: when the sink writes return it delivers
one write per sink entry of `L`, in order, and with a hook configured in
synchronous mode and `L` not below the hook level it calls `Fire` inline
exactly once, with level `L`, the current tags and the payload. -/
theorem logging_after_close (o : MapOrder) (env : Env) (w : MultiWriter) (L : LevelType)
    (format : String) (args : List Value) (ss : SubWriter) (h : Hook)
    (hset : w.writers L = some ss) (hthr : ¬ L < w.level) :
    (Close o w).1.closed = true ∧
    logPlain L env (Close o w).1 args = logPlain L env { w with closed := false } args ∧
    logFormatted L env (Close o w).1 format args =
      logFormatted L env { w with closed := false } format args ∧
    ((∀ i s, s ∈ ss → env.raises i s = false) →
      (logPlain L env (Close o w).1 args).events.filter Event.isWrite =
        ss.map (fun s => Event.write s L args) ∧
      (logFormatted L env (Close o w).1 format args).events.filter Event.isWrite =
        ss.map (fun s => Event.writef s L format args)) ∧
    (w.hook = some h → w.hookAsync = false → ¬ L < w.hookLevel →
      (logPlain L env (Close o w).1 args).events.filter Event.isHook =
        [Event.fire h L (Tags w) args] ∧
      (logFormatted L env (Close o w).1 format args).events.filter Event.isHook =
        [Event.fire h L (Tags w) [Value.str (env.sprintf format args)]]) := by
  have hidx : mapIndex (Close o w).1.writers L = ss := by
    simp [Close, mapIndex, hset]
  have hthr' : ¬ L < (Close o w).1.level := hthr
  have hsome : ((Close o w).1.writers L).isSome = true := by
    simp [Close, hset]
  refine ⟨rfl, ?_, ?_, ?_, ?_⟩
  · rw [logPlain_eq, logPlain_eq]
    rfl
  · rw [logFormatted_eq, logFormatted_eq]
    rfl
  · intro hq
    have hq' : ∀ i s, s ∈ mapIndex (Close o w).1.writers L → env.raises i s = false := by
      rw [hidx]
      exact hq
    rw [logPlain_sink_writes env _ L args hthr' hq',
      logFormatted_sink_writes env _ L format args hthr' hq', hidx]
    exact ⟨rfl, rfl⟩
  · intro hhook hsync hlvl
    rw [logPlain_eq, logFormatted_eq]
    simp only [hsome, Bool.not_true, hthr', decide_False, Bool.or_self, Bool.false_eq_true,
      if_false, write_hook_events, writef_hook_events]
    constructor <;> simp [deferredHook, Tags, Close, hhook, hsync, hlvl]

/-- C10 at a concrete registry: after `Close`, `Error` still writes to the sink
registered at Error and then fires the synchronous hook once. -/
theorem logging_after_close_witness :
    (Close severityOrder hookedAtError).1.closed = true ∧
      (logPlain ERROR quietEnv (Close severityOrder hookedAtError).1 [Value.str "late"]).events =
        [Event.write ⟨2⟩ ERROR [Value.str "late"],
          Event.fire ⟨7⟩ ERROR [("env", "prod")] [Value.str "late"]] ∧
      (logPlain ERROR quietEnv (Close severityOrder hookedAtError).1
        [Value.str "late"]).events.filter Event.isHook =
          [Event.fire ⟨7⟩ ERROR [("env", "prod")] [Value.str "late"]] :=
  have h := logging_after_close severityOrder quietEnv hookedAtError ERROR "%s"
    [Value.str "late"] [⟨2⟩] ⟨7⟩ rfl (by decide)
  ⟨h.1, by decide, (h.2.2.2.2 rfl rfl (by decide)).1⟩

/-! ## The detached hook task -/

/-- The only task the plain entry point ever starts carries the level and the
arguments of the call. -/
theorem logPlain_spawned (env : Env) (w : MultiWriter) (L : LevelType) (args : List Value)
    (t : HookTask) (ht : Event.spawn t ∈ (logPlain L env w args).events) :
    t = HookTask.plain L args := by
  rw [logPlain_eq] at ht
  split at ht
  · simp [Outcome.nothing] at ht
  · simp only [write, List.mem_append] at ht
    rcases ht with ht | ht
    · obtain ⟨s, _, hs⟩ := fanOut_mem env _ _ 0 _ ht
      simp at hs
    · unfold deferredHook at ht
      split at ht
      · simp at ht
      · split at ht
        · split at ht <;> simp at ht
          exact ht
        · simp at ht

/-- The only task the formatted entry point ever starts carries the level, the
template and the arguments of the call. -/
theorem logFormatted_spawned (env : Env) (w : MultiWriter) (L : LevelType) (format : String)
    (args : List Value) (t : HookTask)
    (ht : Event.spawn t ∈ (logFormatted L env w format args).events) :
    t = HookTask.formatted L format args := by
  rw [logFormatted_eq] at ht
  split at ht
  · simp [Outcome.nothing] at ht
  · simp only [writef, List.mem_append] at ht
    rcases ht with ht | ht
    · obtain ⟨s, _, hs⟩ := fanOut_mem env _ _ 0 _ ht
      simp at hs
    · unfold deferredHook at ht
      split at ht
      · simp at ht
      · split at ht
        · split at ht <;> simp at ht
          exact ht
        · simp at ht

/-- The body of the asynchronous hook task.  A task started by a log call
carries the level and the arguments of that call.  Run on a registry whose
closed flag is set, its body calls nothing.  Run on a registry that is not
closed and still has a hook `h`, it calls `Fire` exactly once, with the level,
the payload, and the tags the registry has when the body runs: after a
`SetTags` made between scheduling and running, the hook gets the new tags. -/
theorem hook_task_body (env : Env) (o : MapOrder) (w w' : MultiWriter) (L : LevelType)
    (format : String) (args : List Value) (h : Hook) (newTags : TagMap)
    (hhook : w'.hook = some h) :
    (∀ t, Event.spawn t ∈ (logPlain L env w args).events → t = HookTask.plain L args) ∧
    (∀ t, Event.spawn t ∈ (logFormatted L env w format args).events →
      t = HookTask.formatted L format args) ∧
    (w'.closed = true →
      runHookTask env w' (HookTask.plain L args) = { events := [], crashed := false } ∧
      runHookTask env w' (HookTask.formatted L format args) =
        { events := [], crashed := false }) ∧
    (w'.closed = false →
      runHookTask env w' (HookTask.plain L args) =
        { events := [Event.fire h L (Tags w') args], crashed := false } ∧
      runHookTask env w' (HookTask.formatted L format args) =
        { events := [Event.fire h L (Tags w') [Value.str (env.sprintf format args)]],
          crashed := false }) ∧
    (w'.closed = false →
      runHookTask env (SetTags o w' newTags).1 (HookTask.plain L args) =
        { events := [Event.fire h L newTags args], crashed := false } ∧
      runHookTask env (SetTags o w' newTags).1 (HookTask.formatted L format args) =
        { events := [Event.fire h L newTags [Value.str (env.sprintf format args)]],
          crashed := false }) := by
  refine ⟨fun t => logPlain_spawned env w L args t,
    fun t => logFormatted_spawned env w L format args t, ?_, ?_, ?_⟩
  · intro hc
    simp [runHookTask, hc]
  · intro hc
    simp [runHookTask, hc, hhook]
  · intro hc
    simp [runHookTask, SetTags, Tags, hc, hhook]

/-- The task body at a concrete registry: `Error` schedules one task under the
tags `env=prod`; run after `SetTags env=staging` the body fires with the new
tags, and run after `Close` it calls nothing. -/
theorem hook_task_body_example :
    (logPlain ERROR quietEnv asyncHookedAtError [Value.str "boom"]).events.filter Event.isHook =
        [Event.spawn (HookTask.plain ERROR [Value.str "boom"])] ∧
      runHookTask quietEnv (SetTags severityOrder asyncHookedAtError [("env", "staging")]).1
          (HookTask.plain ERROR [Value.str "boom"]) =
        { events := [Event.fire ⟨7⟩ ERROR [("env", "staging")] [Value.str "boom"]],
          crashed := false } ∧
      runHookTask quietEnv (Close severityOrder asyncHookedAtError).1
          (HookTask.plain ERROR [Value.str "boom"]) = { events := [], crashed := false } :=
  have h := hook_task_body quietEnv severityOrder asyncHookedAtError asyncHookedAtError ERROR
    "%s" [Value.str "boom"] ⟨7⟩ [("env", "staging")] rfl
  have hc := hook_task_body quietEnv severityOrder asyncHookedAtError
    (Close severityOrder asyncHookedAtError).1 ERROR "%s" [Value.str "boom"] ⟨7⟩ [] rfl
  ⟨by decide, (h.2.2.2.2 rfl).1, (hc.2.2.1 rfl).1⟩

/-- Run on a registry that is not closed and whose hook is nil, the task body
calls nothing and crashes, whatever task it is: the nil test made when the
task was started is not made again when it runs. -/
theorem runHookTask_nil_hook (env : Env) (w' : MultiWriter) (t : HookTask)
    (hc : w'.closed = false) (hnil : w'.hook = none) :
    runHookTask env w' t = { events := [], crashed := true } := by
  cases t <;> simp [runHookTask, hc, hnil]

/-- C11, on the code.  The claim promises one hook invocation whenever the task
body runs on a registry that is not closed; the code breaks it.  With sinks at
Info and Error and an asynchronous hook triggered from Warning on, `Error
"boom"` (and `Errorf`) schedules its task; `SetHook nil` is then called before
the task runs; the registry is not closed, yet the body invokes no hook: it
crashes on the nil hook.  Had the hook still been set, it would have fired
once. -/
theorem hook_task_crashes_on_nil_hook :
    (logPlain ERROR quietEnv asyncHookedAtError [Value.str "boom"]).events.filter Event.isHook =
        [Event.spawn (HookTask.plain ERROR [Value.str "boom"])] ∧
      (logFormatted ERROR quietEnv asyncHookedAtError "%s"
          [Value.str "boom"]).events.filter Event.isHook =
        [Event.spawn (HookTask.formatted ERROR "%s" [Value.str "boom"])] ∧
      (SetHook asyncHookedAtError none).closed = false ∧
      runHookTask quietEnv (SetHook asyncHookedAtError none)
          (HookTask.plain ERROR [Value.str "boom"]) = { events := [], crashed := true } ∧
      runHookTask quietEnv (SetHook asyncHookedAtError none)
          (HookTask.formatted ERROR "%s" [Value.str "boom"]) =
        { events := [], crashed := true } ∧
      runHookTask quietEnv asyncHookedAtError (HookTask.plain ERROR [Value.str "boom"]) =
        { events := [Event.fire ⟨7⟩ ERROR [("env", "prod")] [Value.str "boom"]],
          crashed := false } := by
  decide

/-! ## Registration -/

/-- C12.  `AppendWriter L S` makes the SinkSet of `L` the previous one (empty
when `L` had none) followed by `S`, leaves the SinkSet of every other level
as it was, and changes no other field; it does not deduplicate: registering
the same sink twice leaves it twice at the end of the SinkSet. -/
theorem appendWriter_appends (w : MultiWriter) (L : LevelType) (S : Writer) :
    (∀ l, (AppendWriter w L S).writers l =
      if l = L then some (mapIndex w.writers L ++ [S]) else w.writers l) ∧
    mapIndex (AppendWriter (AppendWriter w L S) L S).writers L = mapIndex w.writers L ++ [S, S] ∧
    (AppendWriter w L S).level = w.level ∧ (AppendWriter w L S).colored = w.colored ∧
    (AppendWriter w L S).closed = w.closed ∧ (AppendWriter w L S).hook = w.hook ∧
    (AppendWriter w L S).hookLevel = w.hookLevel ∧
    (AppendWriter w L S).hookAsync = w.hookAsync ∧
    (AppendWriter w L S).timeRotated = w.timeRotated ∧
    (AppendWriter w L S).retentions = w.retentions ∧
    (AppendWriter w L S).rotateSize = w.rotateSize ∧
    (AppendWriter w L S).rotateLines = w.rotateLines ∧
    (AppendWriter w L S).tags = w.tags := by
  refine ⟨?_, ?_, append_fields w L S⟩
  · intro l
    unfold AppendWriter
    split <;> rename_i hL <;> by_cases hl : l = L <;> simp [mapStore, mapIndex, hl, hL]
  · rw [mapIndex_append, mapIndex_append]
    simp

/-! ## Sink failures -/

/-- When the gate is open the plain entry point is `write`. -/
theorem logPlain_open (env : Env) (w : MultiWriter) (L : LevelType) (args : List Value)
    (ss : SubWriter) (hset : w.writers L = some ss) (hthr : ¬ L < w.level) :
    logPlain L env w args = write env w L args := by
  rw [logPlain_eq]
  simp [hset, hthr]

/-- When the gate is open the formatted entry point is `writef`. -/
theorem logFormatted_open (env : Env) (w : MultiWriter) (L : LevelType) (format : String)
    (args : List Value) (ss : SubWriter) (hset : w.writers L = some ss)
    (hthr : ¬ L < w.level) :
    logFormatted L env w format args = writef env w L format args := by
  rw [logFormatted_eq]
  simp [hset, hthr]

/-- When the first write that raises is the one at position `k` of the list,
the loop calls the sinks up to and including that position, once each, and
stops there. -/
theorem fanOut_raise (env : Env) (issue : Writer → Event) :
    ∀ (ss : List Writer) (i k : Nat) (s : Writer),
      ss[k]? = some s → env.raises (i + k) s = true →
      (∀ j t, j < k → ss[j]? = some t → env.raises (i + j) t = false) →
      fanOut env issue i ss = ((ss.take (k + 1)).map issue, true) := by
  intro ss
  induction ss with
  | nil => intro i k s hk; simp at hk
  | cons a rest ih =>
    intro i k s hk hr hb
    cases k with
    | zero =>
      simp at hk
      subst hk
      simp at hr
      simp [fanOut, hr]
    | succ k' =>
      have ha : env.raises i a = false := by
        have := hb 0 a (Nat.succ_pos k') (by simp)
        simpa using this
      have hk' : rest[k']? = some s := by simpa using hk
      have hr' : env.raises (i + 1 + k') s = true := by
        have e : i + 1 + k' = i + (k' + 1) := by omega
        rw [e]; exact hr
      have hb' : ∀ j t, j < k' → rest[j]? = some t → env.raises (i + 1 + j) t = false := by
        intro j t hj ht
        have e : i + 1 + j = i + (j + 1) := by omega
        rw [e]
        exact hb (j + 1) t (by omega) (by simpa using ht)
      simp [fanOut, ha, ih (i + 1) k' s hk' hr' hb']

/-- Sink writes are not hook events, and the other way round. -/
theorem filter_isWrite_append_hook (w : MultiWriter) (L : LevelType) (task : HookTask)
    (payload : List Value) (issue : Writer → Event) (hissue : ∀ s, (issue s).isWrite = true)
    (xs : List Writer) :
    (xs.map issue ++ deferredHook w L task payload).filter Event.isWrite = xs.map issue := by
  have hhook : (deferredHook w L task payload).filter Event.isWrite = [] := by
    rw [List.filter_eq_nil_iff]
    intro e he
    simp [(deferredHook_isHook w L _ _ e he).2]
  rw [List.filter_append, hhook, List.append_nil, List.filter_eq_self]
  intro e he
  obtain ⟨s, _, rfl⟩ := List.mem_map.1 he
  exact hissue s

/-- C13 (sink failure).  At a level `L` that passes the gate, with SinkSet
`ss`, when the first write to raise is the one to the sink at position `k`:
the sink writes issued are exactly those to the entries at positions up to and
including `k`, once each and in order (the failed write is not retried, the
later entries get nothing), and the call leaves by raising to the caller.
When no write raises, the call returns normally. -/
theorem sink_failure_propagates (env : Env) (w : MultiWriter) (L : LevelType)
    (format : String) (args : List Value) (ss : SubWriter) (k : Nat) (s : Writer)
    (hset : w.writers L = some ss) (hthr : ¬ L < w.level)
    (hk : ss[k]? = some s) (hraise : env.raises k s = true)
    (hbefore : ∀ j t, j < k → ss[j]? = some t → env.raises j t = false) :
    ((logPlain L env w args).events.filter Event.isWrite =
        (ss.take (k + 1)).map (fun x => Event.write x L args) ∧
      (logPlain L env w args).raised = true) ∧
    ((logFormatted L env w format args).events.filter Event.isWrite =
        (ss.take (k + 1)).map (fun x => Event.writef x L format args) ∧
      (logFormatted L env w format args).raised = true) ∧
    (∀ env' : Env, (∀ i x, x ∈ ss → env'.raises i x = false) →
      (logPlain L env' w args).raised = false ∧
      (logFormatted L env' w format args).raised = false) := by
  have hidx : mapIndex w.writers L = ss := by simp [mapIndex, hset]
  have hr0 : env.raises (0 + k) s = true := by simpa using hraise
  have hb0 : ∀ j t, j < k → ss[j]? = some t → env.raises (0 + j) t = false := by
    intro j t hj ht
    simpa using hbefore j t hj ht
  rw [logPlain_open env w L args ss hset hthr, logFormatted_open env w L format args ss hset hthr]
  refine ⟨?_, ?_, ?_⟩
  · simp only [write, hidx, fanOut_raise env _ ss 0 k s hk hr0 hb0]
    exact ⟨filter_isWrite_append_hook w L _ _ (fun x => Event.write x L args)
      (fun _ => rfl) _, trivial⟩
  · simp only [writef, hidx, fanOut_raise env _ ss 0 k s hk hr0 hb0]
    exact ⟨filter_isWrite_append_hook w L _ _ (fun x => Event.writef x L format args)
      (fun _ => rfl) _, trivial⟩
  · intro env' hq
    rw [logPlain_open env' w L args ss hset hthr,
      logFormatted_open env' w L format args ss hset hthr]
    simp [write, writef, hidx, fanOut_quiet env' _ ss 0 hq]

/-- C13 at a concrete registry: sinks 1, 2, 3 at Error and the write to sink 2
raises; `Error` writes to 1 and 2, not to 3, and raises. -/
theorem sink_failure_propagates_witness :
    (logPlain ERROR sinkTwoRaises threeAtError [Value.str "boom"]).events.filter Event.isWrite =
        [Event.write ⟨1⟩ ERROR [Value.str "boom"], Event.write ⟨2⟩ ERROR [Value.str "boom"]] ∧
      (logPlain ERROR sinkTwoRaises threeAtError [Value.str "boom"]).raised = true :=
  (sink_failure_propagates sinkTwoRaises threeAtError ERROR "%s" [Value.str "boom"]
    [⟨1⟩, ⟨2⟩, ⟨3⟩] 1 ⟨2⟩ rfl (by decide) rfl rfl (by
      intro j t hj ht
      have hj0 : j = 0 := by omega
      subst hj0
      simp at ht
      subst ht
      rfl)).1

/-- Below the threshold the plain entry point issues nothing. -/
theorem below_threshold_quiet (env : Env) (w : MultiWriter) (L : LevelType) (args : List Value)
    (hlt : L < w.level) : (logPlain L env w args).events = [] := by
  rw [logPlain_eq]
  simp [hlt, Outcome.nothing]

/-! ## Scenario A -/

/-- C14, as stated, fails: Trace does not pass the threshold check against
Debug.  Trace is below Debug in the Severity Table, so with threshold Debug
`Trace` returns at the threshold test even when a sink is registered for
Trace. -/
theorem scenario_a_trace_passes_refuted :
    TRACE < DEBUG ∧ traceSinkRegistry.level = DEBUG ∧
      (traceSinkRegistry.writers TRACE).isSome = true ∧
      (logPlain TRACE quietEnv traceSinkRegistry [Value.str "y"]).events = [] := by
  decide

/-- C14, amended (Scenario A).  In a registry with exactly one sink `W1`,
registered at Info, and threshold Debug: `Info "x"` issues exactly one sink
write, to `W1`, with level Info and payload `["x"]`; `Trace "y"` issues
nothing: no sink is registered for Trace, and Trace is also below the
threshold Debug, so that it stays silent even after a sink is registered for
Trace. -/
theorem scenario_a (env : Env) (w0 : MultiWriter) (W1 S : Writer)
    (hempty : w0.writers = emptyWriters) (hlevel : w0.level = DEBUG) :
    (logPlain INFO env (AppendWriter w0 INFO W1) [Value.str "x"]).events.filter Event.isWrite =
      [Event.write W1 INFO [Value.str "x"]] ∧
    (logPlain TRACE env (AppendWriter w0 INFO W1) [Value.str "y"]).events = [] ∧
    (AppendWriter w0 INFO W1).writers TRACE = none ∧
    TRACE < (AppendWriter w0 INFO W1).level ∧
    (logPlain TRACE env (AppendWriter (AppendWriter w0 INFO W1) TRACE S)
      [Value.str "y"]).events = [] := by
  have hlv : (AppendWriter w0 INFO W1).level = DEBUG := by
    rw [(append_fields w0 INFO W1).1, hlevel]
  have hlv2 : (AppendWriter (AppendWriter w0 INFO W1) TRACE S).level = DEBUG := by
    rw [(append_fields _ TRACE S).1, hlv]
  have hw : (AppendWriter w0 INFO W1).writers INFO = some [W1] := by
    simp [AppendWriter, hempty, emptyWriters, mapStore]
  have htr : TRACE < (AppendWriter w0 INFO W1).level := by rw [hlv]; decide
  have htr2 : TRACE < (AppendWriter (AppendWriter w0 INFO W1) TRACE S).level := by
    rw [hlv2]; decide
  have hinfo : ¬ INFO < (AppendWriter w0 INFO W1).level := by rw [hlv]; decide
  refine ⟨?_, (below_threshold_quiet env _ TRACE _ htr), ?_, htr,
    (below_threshold_quiet env _ TRACE _ htr2)⟩
  · rw [logPlain_open env _ INFO _ [W1] hw hinfo]
    have hidx : mapIndex (AppendWriter w0 INFO W1).writers INFO = [W1] := by
      simp [mapIndex, hw]
    have hfan : (fanOut env (fun x => Event.write x INFO [Value.str "x"]) 0 [W1]).1 =
        [W1].map (fun x => Event.write x INFO [Value.str "x"]) := by
      by_cases hr : env.raises 0 W1 = true <;> simp [fanOut, hr]
    simp only [write, hidx, hfan]
    exact filter_isWrite_append_hook _ INFO _ _ (fun x => Event.write x INFO [Value.str "x"])
      (fun _ => rfl) [W1]
  · simp [AppendWriter, hempty, emptyWriters, mapStore]

/-- C14 amended, at the registry of the scenario. -/
theorem scenario_a_witness :
    (logPlain INFO quietEnv (AppendWriter emptyRegistry INFO ⟨1⟩)
        [Value.str "x"]).events.filter Event.isWrite = [Event.write ⟨1⟩ INFO [Value.str "x"]] ∧
      (logPlain TRACE quietEnv (AppendWriter emptyRegistry INFO ⟨1⟩) [Value.str "y"]).events = [] :=
  have h := scenario_a quietEnv emptyRegistry ⟨1⟩ ⟨2⟩ rfl rfl
  ⟨h.1, h.2.1⟩

/-! ## Exact-level fan-out and the hook of the internal dispatch -/

/-- Hook events are calls on no sink. -/
theorem sink_none_of_isHook (e : Event) (h : e.isHook = true) : e.sink = none := by
  cases e <;> simp_all [Event.isHook, Event.sink]

/-- Among the calls of a fan-out followed by the deferred hook step, the sink
calls are those of the fan-out. -/
theorem filter_sink_append_hook (w : MultiWriter) (L : LevelType) (task : HookTask)
    (payload : List Value) (issue : Writer → Event) (hissue : ∀ s, (issue s).sink = some s)
    (xs : List Writer) :
    (xs.map issue ++ deferredHook w L task payload).filter (fun e => e.sink.isSome) =
      xs.map issue := by
  have hhook : (deferredHook w L task payload).filter (fun e => e.sink.isSome) = [] := by
    rw [List.filter_eq_nil_iff]
    intro e he
    simp [sink_none_of_isHook e (deferredHook_isHook w L _ _ e he).1]
  rw [List.filter_append, hhook, List.append_nil, List.filter_eq_self]
  intro e he
  obtain ⟨s, _, rfl⟩ := List.mem_map.1 he
  simp [hissue s]

/-- C16 (exact-level, ordered fan-out).  At a level `L` that passes the gate,
with SinkSet `ss`: every sink call issued by the entry point of `L` is a write
(`writef` on the formatted path) to an entry of `ss`, with level `L` and the
payload of the call, so that sinks held only by other levels get nothing; when
the writes return, the complete sequence of sink calls is `ss` itself, in
order, one write per entry; and in a registry built by `AppendWriter` calls
that order is the registration order. -/
theorem exact_level_fan_out (env : Env) (w : MultiWriter) (L : LevelType) (format : String)
    (args : List Value) (ss : SubWriter)
    (hset : w.writers L = some ss) (hthr : ¬ L < w.level) :
    (∀ e ∈ (logPlain L env w args).events, ∀ s, e.sink = some s →
      s ∈ ss ∧ e = Event.write s L args) ∧
    (∀ e ∈ (logFormatted L env w format args).events, ∀ s, e.sink = some s →
      s ∈ ss ∧ e = Event.writef s L format args) ∧
    ((∀ i s, s ∈ ss → env.raises i s = false) →
      (logPlain L env w args).events.filter (fun e => e.sink.isSome) =
        ss.map (fun s => Event.write s L args) ∧
      (logFormatted L env w format args).events.filter (fun e => e.sink.isSome) =
        ss.map (fun s => Event.writef s L format args)) ∧
    (∀ (w0 : MultiWriter) (regs : List (LevelType × Writer)), w0.writers = emptyWriters →
      w = registerAll w0 regs →
      ss = (regs.filter (fun r => decide (r.1 = L))).map Prod.snd) := by
  have hidx : mapIndex w.writers L = ss := by simp [mapIndex, hset]
  rw [logPlain_open env w L args ss hset hthr, logFormatted_open env w L format args ss hset hthr]
  refine ⟨?_, ?_, ?_, ?_⟩
  · intro e he s hs
    simp only [write, hidx, List.mem_append] at he
    rcases he with he | he
    · obtain ⟨t, ht, rfl⟩ := fanOut_mem env _ _ 0 e he
      simp only [Event.sink, Option.some.injEq] at hs
      subst hs
      exact ⟨ht, rfl⟩
    · rw [sink_none_of_isHook e (deferredHook_isHook w L _ _ e he).1] at hs
      simp at hs
  · intro e he s hs
    simp only [writef, hidx, List.mem_append] at he
    rcases he with he | he
    · obtain ⟨t, ht, rfl⟩ := fanOut_mem env _ _ 0 e he
      simp only [Event.sink, Option.some.injEq] at hs
      subst hs
      exact ⟨ht, rfl⟩
    · rw [sink_none_of_isHook e (deferredHook_isHook w L _ _ e he).1] at hs
      simp at hs
  · intro hq
    simp only [write, writef, hidx, fanOut_quiet env _ ss 0 hq]
    exact ⟨filter_sink_append_hook w L _ _ (fun s => Event.write s L args) (fun _ => rfl) ss,
      filter_sink_append_hook w L _ _ (fun s => Event.writef s L format args)
        (fun _ => rfl) ss⟩
  · intro w0 regs hempty hw
    rw [← hidx, hw, mapIndex_registerAll, hempty]
    simp [mapIndex, emptyWriters]

/-- C16 at a concrete registry: sinks 1 and 2 at Info, sink 3 at Error; `Infof`
calls 1 then 2 and never 3. -/
theorem exact_level_fan_out_witness :
    (logFormatted INFO quietEnv threeSinkRegistry "%s" [Value.str "x"]).events.filter
        (fun e => e.sink.isSome) =
      [Event.writef ⟨1⟩ INFO "%s" [Value.str "x"], Event.writef ⟨2⟩ INFO "%s" [Value.str "x"]] :=
  ((exact_level_fan_out quietEnv threeSinkRegistry INFO "%s" [Value.str "x"] [⟨1⟩, ⟨2⟩]
    rfl (by decide)).2.2.1 (fun _ _ _ => rfl)).2

/-- C17.  The internal dispatch `write` / `writef` calls or schedules the hook
if and only if a hook is set and the level is not below the hook level,
whatever the mapping holds for that level and whatever the threshold is; in
synchronous mode that is exactly one inline `Fire` with the level, the current
tags and the payload (for `writef`, the rendered string), in asynchronous mode
exactly one scheduled task. -/
theorem internal_dispatch_hook (env : Env) (w : MultiWriter) (L : LevelType) (format : String)
    (args : List Value) :
    ((∃ e ∈ (write env w L args).events, e.isHook = true) ↔
      (w.hook.isSome = true ∧ ¬ L < w.hookLevel)) ∧
    ((∃ e ∈ (writef env w L format args).events, e.isHook = true) ↔
      (w.hook.isSome = true ∧ ¬ L < w.hookLevel)) ∧
    (∀ h, w.hook = some h → ¬ L < w.hookLevel →
      (write env w L args).events.filter Event.isHook =
        (if w.hookAsync then [Event.spawn (HookTask.plain L args)]
          else [Event.fire h L (Tags w) args]) ∧
      (writef env w L format args).events.filter Event.isHook =
        (if w.hookAsync then [Event.spawn (HookTask.formatted L format args)]
          else [Event.fire h L (Tags w) [Value.str (env.sprintf format args)]])) := by
  have hmem : ∀ xs : List Event, (∃ e ∈ xs, e.isHook = true) ↔ xs.filter Event.isHook ≠ [] := by
    intro xs
    rw [Ne, List.filter_eq_nil_iff]
    simp
  rw [hmem, hmem, write_hook_events, writef_hook_events]
  refine ⟨?_, ?_, ?_⟩
  · cases hh : w.hook with
    | none => simp [deferredHook, hh]
    | some h =>
      by_cases hl : L < w.hookLevel
      · simp [deferredHook, hh, hl]
      · by_cases ha : w.hookAsync = true <;> simp [deferredHook, hh, hl, ha]
  · cases hh : w.hook with
    | none => simp [deferredHook, hh]
    | some h =>
      by_cases hl : L < w.hookLevel
      · simp [deferredHook, hh, hl]
      · by_cases ha : w.hookAsync = true <;> simp [deferredHook, hh, hl, ha]
  · intro h hh hl
    by_cases ha : w.hookAsync = true <;> simp [deferredHook, hh, hl, ha]

/-- C17 at a concrete registry with no sink at all and threshold Critical:
`write` at Error still fires the synchronous hook once. -/
theorem internal_dispatch_hook_witness :
    hookOnlyRegistry.writers ERROR = none ∧ ERROR < hookOnlyRegistry.level ∧
      (write quietEnv hookOnlyRegistry ERROR [Value.str "x"]).events.filter Event.isHook =
        [Event.fire ⟨7⟩ ERROR [] [Value.str "x"]] :=
  ⟨rfl, by decide,
    ((internal_dispatch_hook quietEnv hookOnlyRegistry ERROR "%s" [Value.str "x"]).2.2
      ⟨7⟩ rfl (by decide)).1⟩

/-! ## The registry invariant -/

/-- Only `AppendWriter` writes the mapping; it appends to the SinkSet of its
level. -/
theorem mapIndex_step (w : MultiWriter) (op : Op) (L : LevelType) :
    mapIndex (step w op).1.writers L = mapIndex w.writers L ++ registeredFor L [op] := by
  cases op with
  | appendWriter level s =>
    simp only [step, registeredFor, mapIndex_append]
    by_cases h : level = L
    · subst h; simp
    · have h' : ¬ L = level := fun e => h e.symm
      simp [h, h']
  | setRetentions o n =>
    simp only [step, SetRetentions, registeredFor]
    split <;> simp
  | _ => simp [step, registeredFor, SetTimeRotated, SetRotateSize, SetRotateLines, SetColored,
      SetHook, SetHookAsync, SetHookLevel, SetLevel, SetTags, Close, flush]

/-- Every operation keeps every SinkSet non-empty. -/
theorem sinkSetsNonEmpty_step (w : MultiWriter) (op : Op) (h : SinkSetsNonEmpty w.writers) :
    SinkSetsNonEmpty (step w op).1.writers := by
  cases op with
  | appendWriter level s => exact sinkSetsNonEmpty_append w level s h
  | setRetentions o n =>
    simp only [step, SetRetentions]
    split <;> exact h
  | _ => exact h

/-- Registrations of a sequence, split at any point. -/
theorem registeredFor_append (L : LevelType) (xs ys : List Op) :
    registeredFor L (xs ++ ys) = registeredFor L xs ++ registeredFor L ys := by
  induction xs with
  | nil => rfl
  | cons op rest ih =>
    cases op with
    | appendWriter level s =>
      by_cases h : level = L <;> simp [registeredFor, h, ih]
    | _ => simpa [registeredFor] using ih

/-- The SinkSet of a level after a sequence of operations: the old one,
followed by the sinks registered for that level, oldest first. -/
theorem mapIndex_run (L : LevelType) (ops : List Op) :
    ∀ w : MultiWriter, mapIndex (run w ops).writers L =
      mapIndex w.writers L ++ registeredFor L ops := by
  induction ops with
  | nil => intro w; simp [run, registeredFor]
  | cons op rest ih =>
    intro w
    have h := ih (step w op).1
    have hsplit := registeredFor_append L [op] rest
    simp only [List.singleton_append] at hsplit
    simp only [run, List.foldl_cons] at h ⊢
    rw [h, mapIndex_step, hsplit, List.append_assoc]

/-- Every sequence of operations keeps every SinkSet non-empty. -/
theorem sinkSetsNonEmpty_run (ops : List Op) :
    ∀ w : MultiWriter, SinkSetsNonEmpty w.writers → SinkSetsNonEmpty (run w ops).writers := by
  induction ops with
  | nil => intro w h; exact h
  | cons op rest ih =>
    intro w h
    exact ih (step w op).1 (sinkSetsNonEmpty_step w op h)

/-- A level has registrations in a sequence exactly when the sequence holds an
`AppendWriter` for it. -/
theorem registeredFor_ne_nil (L : LevelType) (ops : List Op) :
    registeredFor L ops ≠ [] ↔ ∃ s, Op.appendWriter L s ∈ ops := by
  induction ops with
  | nil => simp [registeredFor]
  | cons op rest ih =>
    cases op with
    | appendWriter level s =>
      by_cases h : level = L
      · subst h
        simp only [registeredFor, if_true, ne_eq, reduceCtorEq, not_false_eq_true, true_iff]
        exact ⟨s, List.mem_cons_self _ _⟩
      · simp only [registeredFor, h, if_false, ih, List.mem_cons]
        constructor
        · rintro ⟨t, ht⟩
          exact ⟨t, Or.inr ht⟩
        · rintro ⟨t, ht | ht⟩
          · injection ht with h1 _
            exact absurd h1.symm h
          · exact ⟨t, ht⟩
    | _ =>
      simp only [registeredFor, ih, List.mem_cons]
      constructor
      · rintro ⟨t, ht⟩
        exact ⟨t, Or.inr ht⟩
      · rintro ⟨t, ht | ht⟩
        · cases ht
        · exact ⟨t, ht⟩

/-- Under the invariant, a key is present exactly when its SinkSet, read as a
slice, is non-empty. -/
theorem isSome_iff_mapIndex (m : WriterMap) (L : LevelType) (h : SinkSetsNonEmpty m) :
    (m L).isSome = true ↔ mapIndex m L ≠ [] := by
  cases hL : m L with
  | none => simp [mapIndex, hL]
  | some ss => simpa [mapIndex, hL] using h L ss hL

/-- C18 (registry invariant).  In every state reached from a registry with an
empty mapping by any sequence of public operations (`AppendWriter`, the
setters, `Close`, `flush`, the logging entry points): every SinkSet present in
the mapping is non-empty; an entry that is present stays present, with its
sinks kept as a leading part, under any further operations; and a SinkSet
exists for `L` exactly when some `AppendWriter` for `L` has been made, its
content being the sinks registered for `L`, oldest first. -/
theorem registry_invariant (w0 : MultiWriter) (ops more : List Op) (L : LevelType)
    (hempty : w0.writers = emptyWriters) :
    SinkSetsNonEmpty (run w0 ops).writers ∧
    (((run w0 ops).writers L).isSome = true →
      ((run w0 (ops ++ more)).writers L).isSome = true) ∧
    mapIndex (run w0 (ops ++ more)).writers L =
      mapIndex (run w0 ops).writers L ++ registeredFor L more ∧
    (((run w0 ops).writers L).isSome = true ↔ ∃ s, Op.appendWriter L s ∈ ops) ∧
    mapIndex (run w0 ops).writers L = registeredFor L ops := by
  have hinv0 : SinkSetsNonEmpty w0.writers := by
    rw [hempty]; exact sinkSetsNonEmpty_empty
  have hinv := sinkSetsNonEmpty_run ops w0 hinv0
  have hinv' := sinkSetsNonEmpty_run (ops ++ more) w0 hinv0
  have hidx0 : mapIndex w0.writers L = [] := by simp [hempty, mapIndex, emptyWriters]
  have hidx : mapIndex (run w0 ops).writers L = registeredFor L ops := by
    rw [mapIndex_run, hidx0, List.nil_append]
  have hidx' : mapIndex (run w0 (ops ++ more)).writers L =
      mapIndex (run w0 ops).writers L ++ registeredFor L more := by
    rw [mapIndex_run, mapIndex_run, registeredFor_append, List.append_assoc]
  refine ⟨hinv, ?_, hidx', ?_, hidx⟩
  · intro hsome
    rw [isSome_iff_mapIndex _ L hinv] at hsome
    rw [isSome_iff_mapIndex _ L hinv', hidx']
    intro hnil
    exact hsome (List.append_eq_nil.1 hnil).1
  · rw [isSome_iff_mapIndex _ L hinv, hidx]
    exact registeredFor_ne_nil L ops

/-- C18 at a concrete session: after registrations mixed with setters, log
calls, `Close` and `flush`, Error holds sink 1 twice, Info holds sink 2 and
Trace has no entry. -/
theorem registry_invariant_witness :
    SinkSetsNonEmpty (run emptyRegistry sampleSession).writers ∧
      mapIndex (run emptyRegistry sampleSession).writers ERROR = [⟨1⟩, ⟨1⟩] ∧
      mapIndex (run emptyRegistry sampleSession).writers INFO = [⟨2⟩] ∧
      ¬ ((run emptyRegistry sampleSession).writers TRACE).isSome = true :=
  have hE := registry_invariant emptyRegistry sampleSession [] ERROR rfl
  have hI := registry_invariant emptyRegistry sampleSession [] INFO rfl
  have hT := registry_invariant emptyRegistry sampleSession [] TRACE rfl
  ⟨hE.1, hE.2.2.2.2, hI.2.2.2.2, fun h => by
    obtain ⟨s, hs⟩ := hT.2.2.2.1.1 h
    simp [sampleSession] at hs⟩

/-! ## Order of the hook step, and payload shapes -/

/-- The deferred hook step in synchronous mode, with the hook due: one inline
`Fire`. -/
theorem deferredHook_sync (w : MultiWriter) (L : LevelType) (task : HookTask)
    (payload : List Value) (h : Hook) (hhook : w.hook = some h)
    (hsync : w.hookAsync = false) (hlvl : ¬ L < w.hookLevel) :
    deferredHook w L task payload = [Event.fire h L (Tags w) payload] := by
  simp [deferredHook, hhook, hsync, hlvl]

/-- C19 (the hook step is deferred).  At a level `L` that passes the gate, with
a hook in synchronous mode and `L` not below the hook level: whatever the sinks
do, what the entry point issues is sink writes followed by exactly one inline
`Fire`, which comes last; when the first write to raise is the one at position
`k`, the writes up to and including that one are followed by the one `Fire`,
and only then does the call leave by raising to the caller. -/
theorem hook_runs_after_fan_out (env : Env) (w : MultiWriter) (L : LevelType)
    (format : String) (args : List Value) (ss : SubWriter) (h : Hook)
    (hset : w.writers L = some ss) (hthr : ¬ L < w.level)
    (hhook : w.hook = some h) (hsync : w.hookAsync = false) (hlvl : ¬ L < w.hookLevel) :
    (∃ pre, (logPlain L env w args).events = pre ++ [Event.fire h L (Tags w) args] ∧
      ∀ e ∈ pre, e.isWrite = true ∧ e.isHook = false) ∧
    (∃ pre, (logFormatted L env w format args).events =
        pre ++ [Event.fire h L (Tags w) [Value.str (env.sprintf format args)]] ∧
      ∀ e ∈ pre, e.isWrite = true ∧ e.isHook = false) ∧
    (∀ k s, ss[k]? = some s → env.raises k s = true →
      (∀ j t, j < k → ss[j]? = some t → env.raises j t = false) →
      ((logPlain L env w args).events =
          (ss.take (k + 1)).map (fun x => Event.write x L args) ++
            [Event.fire h L (Tags w) args] ∧
        (logPlain L env w args).raised = true) ∧
      ((logFormatted L env w format args).events =
          (ss.take (k + 1)).map (fun x => Event.writef x L format args) ++
            [Event.fire h L (Tags w) [Value.str (env.sprintf format args)]] ∧
        (logFormatted L env w format args).raised = true)) := by
  have hidx : mapIndex w.writers L = ss := by simp [mapIndex, hset]
  rw [logPlain_open env w L args ss hset hthr, logFormatted_open env w L format args ss hset hthr]
  refine ⟨?_, ?_, ?_⟩
  · refine ⟨(fanOut env (fun x => Event.write x L args) 0 ss).1, ?_, ?_⟩
    · simp only [write, hidx, deferredHook_sync w L _ _ h hhook hsync hlvl]
    · intro e he
      obtain ⟨t, _, rfl⟩ := fanOut_mem env _ _ 0 e he
      exact ⟨rfl, rfl⟩
  · refine ⟨(fanOut env (fun x => Event.writef x L format args) 0 ss).1, ?_, ?_⟩
    · simp only [writef, hidx, deferredHook_sync w L _ _ h hhook hsync hlvl]
    · intro e he
      obtain ⟨t, _, rfl⟩ := fanOut_mem env _ _ 0 e he
      exact ⟨rfl, rfl⟩
  · intro k s hk hraise hbefore
    have hr0 : env.raises (0 + k) s = true := by simpa using hraise
    have hb0 : ∀ j t, j < k → ss[j]? = some t → env.raises (0 + j) t = false := by
      intro j t hj ht
      simpa using hbefore j t hj ht
    simp [write, writef, hidx, fanOut_raise env _ ss 0 k s hk hr0 hb0,
      deferredHook_sync w L _ _ h hhook hsync hlvl]

/-- C19 at a concrete registry: sinks 1, 2, 3 at Error, the write to sink 2
raises; the hook still fires once, after the failed write, and the call
raises. -/
theorem hook_runs_after_fan_out_witness :
    (logPlain ERROR sinkTwoRaises threeAtError [Value.str "boom"]).events =
        [Event.write ⟨1⟩ ERROR [Value.str "boom"], Event.write ⟨2⟩ ERROR [Value.str "boom"],
          Event.fire ⟨7⟩ ERROR [("env", "prod")] [Value.str "boom"]] ∧
      (logPlain ERROR sinkTwoRaises threeAtError [Value.str "boom"]).raised = true :=
  ((hook_runs_after_fan_out sinkTwoRaises threeAtError ERROR "%s" [Value.str "boom"]
    [⟨1⟩, ⟨2⟩, ⟨3⟩] ⟨7⟩ rfl (by decide) rfl rfl (by decide)).2.2 1 ⟨2⟩ rfl rfl (by
      intro j t hj ht
      have hj0 : j = 0 := by omega
      subst hj0
      simp at ht
      subst ht
      rfl)).1

/-- C20 (payload shapes).  On the formatted path every sink call is a `writef`
carrying the template and the arguments unrendered, an inline hook call
carries exactly one value, the rendered string, and a scheduled task carries
the template and the arguments, which its body renders into that one value;
on the plain path the sink writes, the inline hook call and the task body all
carry the argument list unchanged.  When the gate is open and the writes
return, each entry of the SinkSet gets such a call. -/
theorem payload_shapes (env : Env) (w w' : MultiWriter) (L : LevelType) (format : String)
    (args : List Value) (h' : Hook) :
    (∀ e ∈ (logFormatted L env w format args).events,
      (∃ s, e = Event.writef s L format args) ∨
      (∃ h, e = Event.fire h L (Tags w) [Value.str (env.sprintf format args)]) ∨
      e = Event.spawn (HookTask.formatted L format args)) ∧
    (∀ e ∈ (logPlain L env w args).events,
      (∃ s, e = Event.write s L args) ∨
      (∃ h, e = Event.fire h L (Tags w) args) ∨
      e = Event.spawn (HookTask.plain L args)) ∧
    (w'.closed = false → w'.hook = some h' →
      runHookTask env w' (HookTask.formatted L format args) =
        { events := [Event.fire h' L (Tags w') [Value.str (env.sprintf format args)]],
          crashed := false } ∧
      runHookTask env w' (HookTask.plain L args) =
        { events := [Event.fire h' L (Tags w') args], crashed := false }) ∧
    (∀ ss, w.writers L = some ss → ¬ L < w.level →
      (∀ i s, s ∈ ss → env.raises i s = false) →
      (logFormatted L env w format args).events.filter Event.isWrite =
        ss.map (fun s => Event.writef s L format args) ∧
      (logPlain L env w args).events.filter Event.isWrite =
        ss.map (fun s => Event.write s L args)) := by
  have hdef : ∀ (task : HookTask) (payload : List Value),
      ∀ e ∈ deferredHook w L task payload,
        (∃ h, e = Event.fire h L (Tags w) payload) ∨ e = Event.spawn task := by
    intro task payload e he
    unfold deferredHook at he
    split at he
    · simp at he
    · rename_i hook _
      split at he
      · split at he
        · simp at he
          exact Or.inr he
        · simp at he
          exact Or.inl ⟨hook, he⟩
      · simp at he
  refine ⟨?_, ?_, ?_, ?_⟩
  · intro e he
    rw [logFormatted_eq] at he
    split at he
    · simp [Outcome.nothing] at he
    · simp only [writef, List.mem_append] at he
      rcases he with he | he
      · obtain ⟨s, _, rfl⟩ := fanOut_mem env _ _ 0 e he
        exact Or.inl ⟨s, rfl⟩
      · exact Or.inr (hdef _ _ e he)
  · intro e he
    rw [logPlain_eq] at he
    split at he
    · simp [Outcome.nothing] at he
    · simp only [write, List.mem_append] at he
      rcases he with he | he
      · obtain ⟨s, _, rfl⟩ := fanOut_mem env _ _ 0 e he
        exact Or.inl ⟨s, rfl⟩
      · exact Or.inr (hdef _ _ e he)
  · intro hc hh
    simp [runHookTask, hc, hh]
  · intro ss hset hthr hq
    have hq' : ∀ i s, s ∈ mapIndex w.writers L → env.raises i s = false := by
      simpa [mapIndex, hset] using hq
    rw [logFormatted_sink_writes env w L format args hthr hq',
      logPlain_sink_writes env w L args hthr hq']
    simp [mapIndex, hset]

/-- C20 at a concrete registry: `Errorf` hands the sink the template and the
arguments, and the synchronous hook the one rendered string. -/
theorem payload_shapes_witness :
    (logFormatted ERROR quietEnv hookedAtError "%s-%d" [Value.str "a", Value.int 3]).events =
      [Event.writef ⟨2⟩ ERROR "%s-%d" [Value.str "a", Value.int 3],
        Event.fire ⟨7⟩ ERROR [("env", "prod")]
          [Value.str (quietEnv.sprintf "%s-%d" [Value.str "a", Value.int 3])]] ∧
      (logFormatted ERROR quietEnv hookedAtError "%s-%d"
          [Value.str "a", Value.int 3]).events.filter Event.isWrite =
        [Event.writef ⟨2⟩ ERROR "%s-%d" [Value.str "a", Value.int 3]] :=
  ⟨by decide,
    ((payload_shapes quietEnv hookedAtError hookedAtError ERROR "%s-%d"
      [Value.str "a", Value.int 3] ⟨7⟩).2.2.2 [⟨2⟩] rfl (by decide) (fun _ _ _ => rfl)).1⟩

end Blog4go
